import Mathlib

/-! Verification of the aries-chat real-time messaging core.

A shallow embedding of the message-delivery, read-receipt, deletion and
automated-message components of the aries-chat repository
(socket handler, Message/Conversation/AutoMessage models, queue service),
together with theorems settling the frozen specification claims.

JavaScript strings are modelled as `List Char` so that all operations are
executable and kernel-decidable.  MongoDB documents are Lean structures;
the database is a `Store` of lists; per-document atomic updates
(`updateMany`, `save`) are pure functions on the store.  Wall-clock times
are `Nat` milliseconds.  External sources of randomness (UUIDs, shuffle
indices, template picks) are explicit parameters.
-/

namespace Chat

/-! ## JavaScript string primitives over `List Char` -/

/-- JS `String.prototype.startsWith` on character lists. -/
def startsWithL : List Char → List Char → Bool
  | _, [] => true
  | [], _ :: _ => false
  | c :: cs, d :: ds => c == d && startsWithL cs ds

/-- JS `String.prototype.includes` on character lists. -/
def includesL : List Char → List Char → Bool
  | [], sub => startsWithL [] sub
  | c :: cs, sub => startsWithL (c :: cs) sub || includesL cs sub

/-- JS `String.prototype.replace` with a string pattern: replaces the first
occurrence only, returns the string unchanged when the pattern is absent. -/
def replaceFirstL (s pat rep : List Char) : List Char :=
  match s with
  | [] => if startsWithL [] pat then rep else []
  | c :: cs =>
    if startsWithL (c :: cs) pat then rep ++ (c :: cs).drop pat.length
    else c :: replaceFirstL cs pat rep

/-- Characters before the first comma (the first segment of a JS
`split` on commas). -/
def upToComma : List Char → List Char
  | [] => []
  | c :: cs => if c == ',' then [] else c :: upToComma cs

/-- Characters after the first comma; `[]` when there is no comma. -/
def afterComma : List Char → List Char
  | [] => []
  | c :: cs => if c == ',' then cs else afterComma cs

/-- JS split-on-comma, second segment: the characters between the first and second comma
(used by the handler only when `s` contains a comma, so index 1 exists). -/
def secondSegment (s : List Char) : List Char :=
  upToComma (afterComma s)

/-- The whitespace predicate used for trimming. -/
def wsChar (c : Char) : Bool :=
  c == ' ' || c == '\t' || c == '\n' || c == '\r'

/-- JS `String.prototype.trim`. -/
def trimL (s : List Char) : List Char :=
  ((s.dropWhile wsChar).reverse.dropWhile wsChar).reverse

/-- JS truthiness of a string (`undefined`/`""` are falsy): absent or empty
is `false`. -/
def strTruthy : Option (List Char) → Bool
  | none => false
  | some s => !s.isEmpty

/-- JS `a || b` on strings: `a` when truthy, else `b`. -/
def jsOr (a b : List Char) : List Char :=
  if a.isEmpty then b else a

/-- An optional JS string read with `||`-style truthiness: `undefined`
behaves like the empty string. -/
def optStr : Option (List Char) → List Char
  | none => []
  | some s => s

/-- An optional JS string spliced into a template literal: `undefined`
prints as the literal text `undefined`. -/
def templStr : Option (List Char) → List Char
  | none => ("undefined").data
  | some s => s

/-! ## Data model (src/models/Message.js, Conversation.js, AutoMessage.js)

Fields no claim observes (avatars, thumbnails, reply chains, client info,
the encryption placeholders) are elided.  Enumerated string fields
(`type`, `deliveryStatus`, `deleteType`, conversation `type`) are kept as
strings, exactly as the Mongoose schemas store them. -/

/-- One `readBy` ledger entry of a Message. -/
structure ReadEntry where
  user : Nat
  readAt : Nat
  sessionId : List Char
deriving DecidableEq, Repr

/-- One `deletedFor` soft-delete entry of a Message. -/
structure DeleteEntry where
  user : Nat
  deletedAt : Nat
  deleteType : List Char
deriving DecidableEq, Repr

/-- The persisted part of `fileData` that the handlers read back
(name, declared MIME type, normalized payload, measured size). -/
structure StoredFile where
  name : Option (List Char)
  mime : Option (List Char)
  data : List Char
  size : Nat
deriving DecidableEq, Repr

/-- A persisted Message document.  `id` is the Mongo `_id` (a `Nat` here),
`messageId` the client idempotency key (or a server UUID), both unique. -/
structure Message where
  id : Nat
  messageId : List Char
  sender : Nat
  conversation : Nat
  content : List Char
  type : List Char
  sessionId : List Char
  fileData : Option StoredFile
  readBy : List ReadEntry
  deletedFor : List DeleteEntry
  isDeleted : Bool
  deletedAt : Option Nat
  deletedBy : Option Nat
  deliveryStatus : List Char
  sentAt : Nat
  deliveredAt : Option Nat
  readAt : Option Nat
  createdAt : Nat
deriving DecidableEq, Repr

/-- A Conversation document. -/
structure Conversation where
  id : Nat
  participants : List Nat
  type : List Char
  lastMessage : Option Nat
  lastActivity : Nat
  isActive : Bool
deriving DecidableEq, Repr

/-- An AutoMessage document of the automated pipeline. -/
structure AutoMessage where
  id : Nat
  sender : Nat
  recipient : Nat
  content : List Char
  sendDate : Nat
  isQueued : Bool
  isSent : Bool
  queuedAt : Option Nat
  sentAt : Option Nat
  conversation : Option Nat
deriving DecidableEq, Repr

/-- The database: conversations, messages and auto-messages, plus the next
fresh `_id` the store will assign. -/
structure Store where
  conversations : List Conversation
  messages : List Message
  autoMessages : List AutoMessage
  nextId : Nat
deriving DecidableEq, Repr

/-! ## Events emitted over the socket -/

/-- Structured `details` payload of an `error` event: either the file-size
object `{actualSize, maxSize, type}` or a plain error-message string. -/
inductive ErrDetail where
  | sizeInfo (actualSize maxSize ftype : List Char)
  | textInfo (text : List Char)
deriving DecidableEq, Repr

/-- The server→client events the modelled handlers emit.  Room/user
targeting is carried in the payload fields. -/
inductive Ev where
  | errEv (message : List Char) (details : Option ErrDetail)
  | messageReceived (room : Nat) (msgId : Nat) (content : List Char)
  | messageSentAck (messageId : List Char) (timestamp : Nat) (deliveryStatus : List Char)
  | messageDelivered (messageId : List Char)
  | messagesRead (userId : Nat) (messageIds : List Nat) (sessionId : List Char)
  | readReceipt (toUser : Nat) (messageId : List Char) (readBy : Nat) (conversationId : Nat)
  | unreadCount (toUser : Nat) (senderId : Nat) (conversationId : Nat) (count : Nat)
  | deletedForEveryone (room : Nat) (messageId : Nat) (deletedBy : Nat)
  | deletedForMe (messageId : Nat)
  | multipleDeleted (deletedMessageIds : List Nat) (deletedCount : Nat) (totalRequested : Nat)
deriving DecidableEq, Repr

/-! ## String constants of the handlers (src/unnamed/part_000) -/
def errSessionRequired : List Char := ("Session ID required").data

def errConvNotFound : List Char := ("Conversation not found").data

def errContentRequired : List Char := ("Message content or file required").data

def errSendFailed : List Char := ("Error sending message").data

def errMsgNotFound : List Char := ("Message not found").data

def errAccessDenied : List Char := ("Access denied").data

def errDeleteFailed : List Char := ("Error deleting message").data

def errOnlySender : List Char := ("Only sender can delete for everyone").data

def errDeleteWindow : List Char := ("Message can only be deleted for everyone within 1 hour").data

def errInvalidIds : List Char := ("Invalid message IDs").data

def statusSent : List Char := ("sent").data

def statusDelivered : List Char := ("delivered").data

def statusRead : List Char := ("read").data

def dtForMe : List Char := ("forMe").data

def dtForEveryone : List Char := ("forEveryone").data

def ctPrivate : List Char := ("private").data

/-- What the MongoDB driver puts in `error.message` on a duplicate-key
insert; the exact text is infrastructure-specific, the handler forwards it
verbatim as the `details` of its error event. -/
def dupKeyText : List Char := ("duplicate key error").data

/-- Decimal digits of a `Nat`, structurally recursive on a fuel bound so
that it reduces inside `decide` (for splicing numbers into JS template
literals). -/
def natCharsAux : Nat → Nat → List Char
  | 0, _ => []
  | fuel + 1, n =>
    if n < 10 then [Char.ofNat (48 + n)]
    else natCharsAux fuel (n / 10) ++ [Char.ofNat (48 + n % 10)]

/-- Decimal digits of a `Nat`. -/
def natChars (n : Nat) : List Char := natCharsAux (n + 1) n

/-- The handler size-exceeded error text:
`File size exceeds limit of <limitMB>MB`. -/
def sizeErrMsg (limitMB : Nat) : List Char :=
  ("File size exceeds limit of ").data ++ natChars limitMB ++ ("MB").data

/-- A megabyte count rendered as in the error details: `<n>MB`. -/
def mbStr (n : Nat) : List Char := natChars n ++ ("MB").data

/-! ## send_message helpers (part_000 lines 113-333) -/

/-- Per-category maximum sizes, with the `maxSizes[messageType] ||
maxSizes.file` fallback for unknown categories. -/
def maxSizeFor (t : List Char) : Nat :=
  if t = ("image").data then 10 * 1024 * 1024
  else if t = ("video").data then 50 * 1024 * 1024
  else if t = ("audio").data then 20 * 1024 * 1024
  else if t = ("file").data then 20 * 1024 * 1024
  else 20 * 1024 * 1024

/-- Classification of the declared MIME type into a message type
(lines 139-149). -/
def classifyMime (mime : List Char) : List Char :=
  if startsWithL mime (("image/").data) then ("image").data
  else if startsWithL mime (("video/").data) then ("video").data
  else if startsWithL mime (("audio/").data) then ("audio").data
  else ("file").data

/-- The base64 payload normalization of lines 160-167: insert the missing
`;` before `base64,`, then prepend a `data:<mime>;base64,` header when the
string does not already start with `data:` (an absent MIME type splices as
the literal `undefined`, as in a JS template literal). -/
def fixPayload (mime : Option (List Char)) (d : List Char) : List Char :=
  let d1 := if !d.isEmpty && !(includesL d ((";base64,").data))
               && includesL d (("base64,").data)
            then replaceFirstL d (("base64,").data) ((";base64,").data) else d
  if !d1.isEmpty && !(startsWithL d1 (("data:").data))
  then ("data:").data ++ templStr mime ++ ((";base64,").data) ++ d1
  else d1

/-- Line 170: when the fixed payload contains a comma, measure its second
comma-separated segment, otherwise the whole string. -/
def base64Part (s : List Char) : List Char :=
  if includesL s ([',']) then secondSegment s else s

/-- Line 171: `Math.round((base64Data.length * 3) / 4)`. -/
def roundedSize (s : List Char) : Nat := (3 * s.length + 2) / 4

/-- JS `Math.round(bytes / (1024 * 1024))`. -/
def roundedMB (bytes : Nat) : Nat := (2 * bytes + 1048576) / 2097152

/-- The client file payload of a `send_message` event. -/
structure FileInput where
  name : Option (List Char)
  mime : Option (List Char)
  data : Option (List Char)
  declaredSize : Option Nat
  duration : Option Nat
  url : Option (List Char)
deriving DecidableEq, Repr

/-- A `send_message` payload after JS destructuring (so `type` already
carries the `text` default; an absent `content` is the empty string). -/
structure SendInput where
  conversationId : Nat
  content : List Char
  type : List Char
  messageId : List Char
  sessionId : List Char
  fileData : Option FileInput
deriving DecidableEq, Repr

/-- Result of the send handler: new store, emitted events, and the id of
the message whose 100ms delivered-promotion timer was scheduled. -/
structure SendResult where
  st : Store
  events : List Ev
  pending : Option Nat
deriving DecidableEq, Repr

/-- The lookup of the conversation by id with the caller among its participants. -/
def findConv (st : Store) (cid uid : Nat) : Option Conversation :=
  st.conversations.find? (fun c => c.id == cid && c.participants.contains uid)

/-- Saving the conversation after `lastMessage = ...; lastActivity = ...`
(Mongo `_id`s are unique, so the by-id update touches one document). -/
def bumpConv (convs : List Conversation) (cid mid now : Nat) : List Conversation :=
  convs.map (fun c =>
    if c.id == cid then { c with lastMessage := some mid, lastActivity := now } else c)

/-- Lines 217-282: the empty-content check, the `Message` save (the unique
sparse index on `messageId` makes a reused idempotency key a duplicate-key
error caught by the outer catch of the handler), the conversation bump and the
fan-out/ack events.  `fresh` models `crypto.randomUUID()`. -/
def sendPersistPhase (st : Store) (uid : Nat) (inp : SendInput)
    (messageContent messageType : List Char) (pf : Option StoredFile)
    (now : Nat) (fresh : List Char) : SendResult :=
  if (trimL messageContent).isEmpty && pf.isNone then
    ⟨st, [.errEv errContentRequired none], none⟩
  else
    let key := jsOr inp.messageId fresh
    if st.messages.any (fun m => m.messageId == key) then
      ⟨st, [.errEv errSendFailed (some (.textInfo dupKeyText))], none⟩
    else
      let newMsg : Message :=
        { id := st.nextId, messageId := key, sender := uid,
          conversation := inp.conversationId, content := trimL messageContent,
          type := messageType, sessionId := inp.sessionId, fileData := pf,
          readBy := [], deletedFor := [], isDeleted := false, deletedAt := none,
          deletedBy := none, deliveryStatus := statusSent, sentAt := now,
          deliveredAt := none, readAt := none, createdAt := now }
      let st' : Store :=
        { st with messages := st.messages ++ [newMsg],
                  conversations := bumpConv st.conversations inp.conversationId st.nextId now,
                  nextId := st.nextId + 1 }
      ⟨st', [.messageReceived inp.conversationId newMsg.id newMsg.content,
             .messageSentAck (jsOr inp.messageId (natChars newMsg.id)) now statusSent],
       some newMsg.id⟩

/-- Result of the content/file-processing block of `send_message`
(lines 132-215): either a size-rejection event, or the message content,
message type and processed file payload to persist.  The block depends
only on the event payload, not on the store. -/
inductive PayloadOutcome where
  | reject (e : Ev)
  | accept (messageContent messageType : List Char) (pf : Option StoredFile)
deriving DecidableEq, Repr

/-- Lines 132-215 of the `send_message` handler: the `fileData.name ||
content || File` content override, the MIME classification, the base64
normalization, and the measured-size check against the per-category
limit. -/
def processPayload (inp : SendInput) : PayloadOutcome :=
  match inp.fileData with
  | some fd =>
    if strTruthy fd.data then
      let d := optStr fd.data
      let messageContent := jsOr (optStr fd.name) (jsOr inp.content (("File").data))
      let messageType := if strTruthy fd.mime then classifyMime (optStr fd.mime) else inp.type
      let maxSize := maxSizeFor messageType
      let fixed := fixPayload fd.mime d
      let actualFileSize := roundedSize (base64Part fixed)
      if actualFileSize > maxSize then
        .reject (.errEv (sizeErrMsg (roundedMB maxSize))
                  (some (.sizeInfo (mbStr (roundedMB actualFileSize))
                                   (mbStr (roundedMB maxSize)) messageType)))
      else
        .accept messageContent messageType (some ⟨fd.name, fd.mime, fixed, actualFileSize⟩)
    else .accept inp.content inp.type none
  | none => .accept inp.content inp.type none

/-- The `send_message` handler (part_000 lines 113-333), up to the point
where the delivered-promotion timer is scheduled (`pending`); the timer
body itself is `promoteDelivered` below. -/
def sendMessage (st : Store) (uid : Nat) (inp : SendInput) (now : Nat)
    (fresh : List Char) : SendResult :=
  if inp.sessionId.isEmpty then ⟨st, [.errEv errSessionRequired none], none⟩
  else
    match findConv st inp.conversationId uid with
    | none => ⟨st, [.errEv errConvNotFound none], none⟩
    | some _ =>
      match processPayload inp with
      | .reject e => ⟨st, [e], none⟩
      | .accept mc mt pf => sendPersistPhase st uid inp mc mt pf now fresh

/-- The unread count pushed to a viewer: the messages by the sender in the
conversation not yet read by the viewer and not deleted (lines 300-306). -/
def unreadFromSender (msgs : List Message) (senderId cid viewer : Nat) : Nat :=
  (msgs.filter (fun m => m.sender == senderId && m.conversation == cid
      && !(m.readBy.any (fun r => r.user == viewer)) && !m.isDeleted
      && !(m.deletedFor.any (fun e => e.user == viewer)))).length

/-- The body of the 100ms `setTimeout` (lines 284-324): the captured
document field `deliveryStatus` is set to `delivered` and saved back
unconditionally, then the sender is notified and each other participant
gets a recomputed unread count. -/
def promoteDelivered (st : Store) (mid now : Nat) : Store × List Ev :=
  match st.messages.find? (fun m => m.id == mid) with
  | none => (st, [])
  | some m =>
    let msgs := st.messages.map (fun x =>
      if x.id == mid then { x with deliveryStatus := statusDelivered, deliveredAt := some now }
      else x)
    let st' := { st with messages := msgs }
    match st.conversations.find? (fun c => c.id == m.conversation) with
    | none => (st', [.messageDelivered (jsOr m.messageId (natChars m.id))])
    | some conv =>
      let others := conv.participants.filter (fun p => p != m.sender)
      (st', .messageDelivered (jsOr m.messageId (natChars m.id)) ::
        others.map (fun p =>
          .unreadCount p m.sender m.conversation (unreadFromSender msgs m.sender m.conversation p)))

/-! ## mark_messages_read (part_000 lines 421-521) -/

/-- The `updateMany` filter: in the requested set, in this conversation,
not already read by the caller, not deleted for everyone, not deleted for
the caller. -/
def eligibleRead (uid : Nat) (ids : List Nat) (cid : Nat) (m : Message) : Bool :=
  ids.contains m.id && m.conversation == cid
    && !(m.readBy.any (fun r => r.user == uid)) && !m.isDeleted
    && !(m.deletedFor.any (fun e => e.user == uid))

/-- The per-document atomic update of `updateMany`: `$push` one `readBy`
entry and `$set` the status to `read`. -/
def applyReadOne (uid : Nat) (ids : List Nat) (cid : Nat) (sid : List Char)
    (now : Nat) (m : Message) : Message :=
  if eligibleRead uid ids cid m then
    { m with readBy := m.readBy ++ [⟨uid, now, sid⟩],
             deliveryStatus := statusRead, readAt := some now }
  else m

/-- JS set spread: deduplication keeping first occurrences. -/
def firstDedup : List Nat → List Nat
  | [] => []
  | x :: xs => x :: (firstDedup xs).filter (fun y => y != x)

/-- The `mark_messages_read` handler.  A missing session id or a failed
participant lookup returns silently (no events). -/
def markMessagesRead (st : Store) (uid : Nat) (ids : List Nat) (cid : Nat)
    (sid : List Char) (now : Nat) : Store × List Ev :=
  if sid.isEmpty then (st, [])
  else
    match findConv st cid uid with
    | none => (st, [])
    | some _ =>
      let modified := (st.messages.filter (eligibleRead uid ids cid)).length
      let msgs := st.messages.map (applyReadOne uid ids cid sid now)
      let st' := { st with messages := msgs }
      if modified > 0 then
        let readMessages := msgs.filter (fun m => ids.contains m.id && m.conversation == cid)
        let receipts := (readMessages.filter (fun m => m.sender != uid)).map
          (fun m => Ev.readReceipt m.sender (jsOr m.messageId (natChars m.id)) uid cid)
        let uniqueSenders := firstDedup (readMessages.map (fun m => m.sender))
        let counts := (uniqueSenders.filter (fun s => s != uid)).map
          (fun s => Ev.unreadCount uid s cid (unreadFromSender msgs s cid uid))
        (st', Ev.messagesRead uid ids sid :: (receipts ++ counts))
      else (st', [])

/-! ## delete_message and delete_multiple_messages (part_000 lines 335-384,
523-567; Message.deleteForUser, part_002 lines 265-288) -/

/-- The method `deleteForUser` with deleteType forMe: append one `deletedFor` entry unless the
user already has one (idempotent). -/
def applyDeleteForMe (uid now : Nat) (m : Message) : Message :=
  if m.deletedFor.any (fun e => e.user == uid) then m
  else { m with deletedFor := m.deletedFor ++ [⟨uid, now, dtForMe⟩] }

/-- The `delete_message` handler. -/
def deleteMessage (st : Store) (uid mid : Nat) (deleteType : List Char)
    (cid now : Nat) : Store × List Ev :=
  match st.messages.find? (fun m => m.id == mid) with
  | none => (st, [.errEv errMsgNotFound none])
  | some m =>
    match st.conversations.find? (fun c => c.id == m.conversation) with
    | none => (st, [.errEv errDeleteFailed none])
    | some conv =>
      if !(conv.participants.contains uid) then (st, [.errEv errAccessDenied none])
      else if deleteType == dtForEveryone then
        if !(m.sender == uid) then (st, [.errEv errOnlySender none])
        else if m.createdAt < now - 3600000 then (st, [.errEv errDeleteWindow none])
        else
          let msgs := st.messages.map (fun x =>
            if x.id == mid then { x with isDeleted := true, deletedAt := some now, deletedBy := some uid }
            else x)
          ({ st with messages := msgs }, [.deletedForEveryone cid mid uid])
      else
        let msgs := st.messages.map (fun x => if x.id == mid then applyDeleteForMe uid now x else x)
        ({ st with messages := msgs }, [.deletedForMe mid])

/-- The per-id loop of `delete_multiple_messages`: each id is looked up and
soft-deleted inside its own try/catch; `faults` is the set of ids whose
processing throws (malformed-id cast errors, save failures) — such items
are logged and skipped, the loop continues. -/
def delMultiLoop (uid cid now : Nat) (faults : List Nat) :
    Store → List Nat → Store × Nat × List Nat
  | st, [] => (st, 0, [])
  | st, i :: rest =>
    if faults.contains i then delMultiLoop uid cid now faults st rest
    else
      match st.messages.find? (fun m => m.id == i) with
      | none => delMultiLoop uid cid now faults st rest
      | some m =>
        if m.conversation == cid then
          let st' := { st with messages := st.messages.map (fun x =>
            if x.id == i then applyDeleteForMe uid now x else x) }
          let r := delMultiLoop uid cid now faults st' rest
          (r.1, r.2.1 + 1, i :: r.2.2)
        else delMultiLoop uid cid now faults st rest

/-- The `delete_multiple_messages` handler. -/
def deleteMultipleMessages (st : Store) (uid : Nat) (ids : List Nat)
    (cid now : Nat) (faults : List Nat) : Store × List Ev :=
  if ids.isEmpty then (st, [.errEv errInvalidIds none])
  else
    match findConv st cid uid with
    | none => (st, [.errEv errConvNotFound none])
    | some _ =>
      let r := delMultiLoop uid cid now faults st ids
      (r.1, [.multipleDeleted r.2.2 r.2.1 ids.length])

/-! ## Automated message pipeline (src/services/queueService.js) -/

/-- What the consumer does with a delivered work item: `channel.ack` or
`channel.nack(msg, false, false)` (no requeue — the item is dropped). -/
inductive AckDecision where
  | ack
  | nackDrop
deriving DecidableEq, Repr

/-- The payload of a queue work item. -/
structure WorkItem where
  autoMessageId : Nat
deriving DecidableEq, Repr

/-- The lookup `Conversation.findOne` on both participants with type private. -/
def findPrivateConv (st : Store) (s r : Nat) : Option Conversation :=
  st.conversations.find? (fun c =>
    c.participants.contains s && c.participants.contains r && c.type == ctPrivate)

/-- The consumer body `processAutoMessage` (queueService.js lines 58-111).  The whole body is
wrapped in a try/catch that only logs, so the function never throws to its
caller; `dbFault` models an infrastructure error thrown inside the body
(placed at the conversation lookup, before any mutation).  `fresh` is the
UUID the Message pre-save hook assigns as `messageId`. -/
def processAutoMessage (st : Store) (amId : Nat) (dbFault : Bool) (now : Nat)
    (fresh : List Char) : Store × List Ev :=
  match st.autoMessages.find? (fun a => a.id == amId) with
  | none => (st, [])
  | some am =>
    if am.isSent then (st, [])
    else if dbFault then (st, [])
    else
      let found := findPrivateConv st am.sender am.recipient
      let convId := match found with
        | some c => c.id
        | none => st.nextId
      let newConv : Conversation :=
        ⟨st.nextId, [am.sender, am.recipient], ctPrivate, none, now, true⟩
      let st1 : Store := match found with
        | some _ => st
        | none =>
          { st with conversations := st.conversations ++ [newConv],
                    nextId := st.nextId + 1 }
      if st1.messages.any (fun m => m.messageId == fresh) then (st1, [])
      else
        let msg : Message :=
          { id := st1.nextId, messageId := fresh, sender := am.sender,
            conversation := convId, content := am.content, type := ("text").data,
            sessionId := [], fileData := none, readBy := [], deletedFor := [],
            isDeleted := false, deletedAt := none, deletedBy := none,
            deliveryStatus := statusSent, sentAt := now, deliveredAt := none,
            readAt := none, createdAt := now }
        let setSent := fun (a : AutoMessage) =>
          if a.id == amId then
            { a with isSent := true, sentAt := some now, conversation := some convId }
          else a
        let st2 : Store :=
          { st1 with messages := st1.messages ++ [msg],
                     conversations := bumpConv st1.conversations convId msg.id now,
                     autoMessages := st1.autoMessages.map setSent,
                     nextId := st1.nextId + 1 }
        (st2, [.messageReceived am.recipient msg.id msg.content])

/-- One delivery of the queue consumer (lines 39-56): a payload that fails
to parse throws before `processAutoMessage` and is nacked without requeue;
otherwise `processAutoMessage` runs (it swallows its own errors) and the
item is acked. -/
def consumerStep (st : Store) (payload : Option WorkItem) (dbFault : Bool)
    (now : Nat) (fresh : List Char) : Store × List Ev × AckDecision :=
  match payload with
  | none => (st, [], .nackDrop)
  | some w =>
    let r := processAutoMessage st w.autoMessageId dbFault now fresh
    (r.1, r.2, .ack)

/-- The template pool of the planner (lines 124-135). -/
def messageTemplates : List (List Char) :=
  [("Merhaba! Nasılsın?").data,
   ("Bugün nasıl geçiyor?").data,
   ("Seni merak ettim, ne yapıyorsun?").data,
   ("Umarım güzel bir gün geçiriyorsundur!").data,
   ("Selam! Keyifler nasıl?").data,
   ("Hey! Uzun zamandır konuşmuyoruz.").data,
   ("Nasıl gidiyor işler?").data,
   ("Bugün nerelerdeydin?").data,
   ("Hava çok güzel değil mi?").data,
   ("Yakında görüşelim mi?").data]

/-- Swap two positions of a list (out-of-range positions are no-ops, as in
the array destructuring swap of the source). -/
def swapAt (l : List Nat) (i j : Nat) : List Nat :=
  let a := l.getD i 0
  let b := l.getD j 0
  (l.set i b).set j a

/-- The Fisher-Yates loop of `shuffleArray` (lines 223-230), walking `i`
down from `length - 1` to `1`; each random draw `Math.floor(Math.random()
* (i + 1))` is modelled as `r % (i + 1)` from the entropy list. -/
def fyAux : List Nat → Nat → List Nat → List Nat
  | l, 0, _ => l
  | l, _ + 1, [] => l
  | l, i + 1, r :: rs => fyAux (swapAt l (i + 1) (r % (i + 2))) i rs

/-- The shuffle entry point `shuffleArray`. -/
def shuffleArray (l : List Nat) (rand : List Nat) : List Nat :=
  fyAux l (l.length - 1) rand

/-- The pairing loop of the planner (lines 167-172): adjacent pairs of the
shuffled list, the odd last element dropped. -/
def buildPairs : List Nat → List (Nat × Nat)
  | a :: b :: rest => (a, b) :: buildPairs rest
  | _ => []

/-- One AutoMessage per pair (lines 174-189): a template picked by
`Math.floor(Math.random() * 10)` (modelled `t % 10`) and a send date
`now + Math.random() * 24h` (modelled `now + d % 86400000`);
`isQueued = false, isSent = false`.  Ids are assigned by `insertMany`. -/
def mkAutoMessages : List (Nat × Nat) → List Nat → List Nat → Nat → Nat → List AutoMessage
  | [], _, _, _, _ => []
  | p :: rest, ts, ds, now, nid =>
    { id := nid, sender := p.1, recipient := p.2,
      content := messageTemplates.getD (ts.headD 0 % messageTemplates.length) [],
      sendDate := now + ds.headD 0 % 86400000,
      isQueued := false, isSent := false, queuedAt := none, sentAt := none,
      conversation := none } :: mkAutoMessages rest ts.tail ds.tail now (nid + 1)

/-- The planner `planAutomaticMessages` (lines 157-196), taking the result
of `User.find({isActive: true})` as the list of active user ids. -/
def planAutomaticMessages (activeUsers : List Nat) (rand ts ds : List Nat)
    (now nid : Nat) : List AutoMessage :=
  if activeUsers.length < 2 then []
  else mkAutoMessages (buildPairs (shuffleArray activeUsers rand)) ts ds now nid

/-! ## A single step relation over all modelled operations -/

/-- Any one store-mutating operation of the modelled system. -/
inductive Op where
  | send (uid : Nat) (inp : SendInput) (now : Nat) (fresh : List Char)
  | promote (mid now : Nat)
  | markRead (uid : Nat) (ids : List Nat) (cid : Nat) (sid : List Char) (now : Nat)
  | del (uid mid : Nat) (dt : List Char) (cid now : Nat)
  | delMulti (uid : Nat) (ids : List Nat) (cid now : Nat) (faults : List Nat)
  | consume (payload : Option WorkItem) (dbFault : Bool) (now : Nat) (fresh : List Char)

/-- The store after one operation. -/
def applyOp (st : Store) : Op → Store
  | .send uid inp now fresh => (sendMessage st uid inp now fresh).st
  | .promote mid now => (promoteDelivered st mid now).1
  | .markRead uid ids cid sid now => (markMessagesRead st uid ids cid sid now).1
  | .del uid mid dt cid now => (deleteMessage st uid mid dt cid now).1
  | .delMulti uid ids cid now faults => (deleteMultipleMessages st uid ids cid now faults).1
  | .consume p f now fresh => (consumerStep st p f now fresh).1

/-! ## Concrete fixtures used by witnesses and counterexamples -/

/-- A two-party private conversation between users 1 and 2. -/
def wConv : Conversation := ⟨1, [1, 2], ctPrivate, none, 0, true⟩

/-- A store holding only `wConv`. -/
def wStore : Store := ⟨[wConv], [], [], 100⟩

/-- A plain text send of `"hi"` with idempotency key `m1`. -/
def wInp : SendInput := ⟨1, ("hi").data, ("text").data, ("m1").data, ("s1").data, none⟩

/-- A minimal text message fixture. -/
def mkMsg (i sender conv created : Nat) : Message :=
  ⟨i, natChars i, sender, conv, ("x").data, ("text").data, ("s").data, none, [],
   [], false, none, none, statusSent, created, none, none, created⟩

/-- A second store: conversations 1 = {1,2} and 2 = {1,3}; message 10
unread in conversation 1, message 11 already read by user 2, message 12 in
conversation 2, message 13 deleted-for user 2. -/
def rStore : Store :=
  ⟨[wConv, ⟨2, [1, 3], ctPrivate, none, 0, true⟩],
   [mkMsg 10 1 1 0,
    { mkMsg 11 1 1 0 with readBy := [⟨2, 5, ("sA").data⟩] },
    mkMsg 12 1 2 0,
    { mkMsg 13 1 1 0 with deletedFor := [⟨2, 5, dtForMe⟩] }],
   [], 100⟩

/-- At most one `readBy` entry per user. -/
def readByUnique (m : Message) : Prop := (m.readBy.map ReadEntry.user).Nodup

/-- One `mark_messages_read` invocation (caller, ids, conversation,
session, time). -/
structure ReadCall where
  uid : Nat
  ids : List Nat
  cid : Nat
  sid : List Char
  now : Nat

/-- A sequence of mark-read calls applied to the store: MongoDB applies
each `updateMany` atomically per document, so any concurrent interleaving
of duplicate calls is one such sequence. -/
def applyReadCalls (st : Store) (calls : List ReadCall) : Store :=
  calls.foldl (fun s c => (markMessagesRead s c.uid c.ids c.cid c.sid c.now).1) st

/-- A per-message rewrite that keeps the id and never clears `isDeleted`. -/
def msgPres (f : Message → Message) : Prop :=
  ∀ x, (f x).id = x.id ∧ (x.isDeleted = true → (f x).isDeleted = true)

/-- A message of conversation 1 sent by user 1 at time 10000000. -/
def dMsg : Message := mkMsg 5 1 1 10000000

/-- A store holding `wConv` and `dMsg`. -/
def dStore : Store := ⟨[wConv], [dMsg], [], 100⟩

/-- Soft-delete a message for `uid` when its id is in `s`. -/
def delForMeIf (uid now : Nat) (s : List Nat) (m : Message) : Message :=
  if s.contains m.id then applyDeleteForMe uid now m else m

/-- Which requested ids the bulk-delete loop actually deletes: not
throwing, existing, and belonging to the requested conversation. -/
def delMultiOk (st : Store) (cid : Nat) (faults : List Nat) (i : Nat) : Bool :=
  !faults.contains i &&
    ((st.messages.find? (fun m => m.id == i)).map (fun m => m.conversation == cid)).getD false

/-- A store with messages 5 and 6 in conversation 1 and message 9 in
conversation 3. -/
def bStore : Store := ⟨[wConv], [mkMsg 5 1 1 0, mkMsg 6 2 1 0, mkMsg 9 1 3 0], [], 100⟩

/-- A pending (unsent) AutoMessage from user 1 to user 2. -/
def cAuto : AutoMessage := ⟨7, 1, 2, ("hey").data, 50, true, false, some 60, none, none⟩

/-- A store holding only `cAuto`. -/
def cStore : Store := ⟨[], [], [cAuto], 100⟩

/-- An 11MB-measuring PNG payload: a well-formed data URL whose base64
body is 14000000 characters, decoding to about 10.5 million bytes —
over the 10MB image limit. -/
def bigPayload : List Char := ("data:image/png;base64,").data ++ List.replicate 14000000 ('a')

/-- The oversized file input. -/
def wFile : FileInput := ⟨some (("big.png").data), some (("image/png").data),
  some bigPayload, none, none, none⟩

/-- A send_message payload carrying the oversized image. -/
def wFileInp : SendInput := ⟨1, [], ("text").data, ("m5").data, ("s1").data, some wFile⟩

/-- A small well-formed PNG file payload. -/
def wSmallFile : FileInput := ⟨some (("a.png").data), some (("image/png").data),
  some (("iVBORw0KGgo=").data), none, none, none⟩

/-- A send carrying both text content and the small file. -/
def wFileInp2 : SendInput := ⟨1, ("alongside text").data, ("text").data, ("mA").data,
  ("s1").data, some wSmallFile⟩

/-! ## Helper lemmas and claim theorems -/

lemma bumpConv_find? (convs : List Conversation) (cid mid now cid' uid : Nat) :
    (bumpConv convs cid mid now).find? (fun c => c.id == cid' && c.participants.contains uid)
      = (convs.find? (fun c => c.id == cid' && c.participants.contains uid)).map
          (fun c => if c.id == cid then { c with lastMessage := some mid, lastActivity := now } else c) := by
  unfold bumpConv
  rw [List.find?_map]
  congr 1
  refine congrArg (fun q => List.find? q convs) ?_
  funext c
  by_cases h : c.id == cid <;> simp [Function.comp, h]

/-- Claim C1 (confirmed): idempotent send.  For a valid send whose client
idempotency key is fresh, applying the send twice with the same key leaves
exactly one persisted Message carrying that key, bumps the conversation
lastActivity exactly once (to the first send time), and makes the second
application a store no-op that emits only the caught duplicate-key error. -/
theorem send_message_idempotent_retry
    (st : Store) (uid t1 t2 : Nat) (inp : SendInput) (fresh1 fresh2 : List Char)
    (c : Conversation) (mc mt : List Char) (pf : Option StoredFile)
    (hsid : inp.sessionId.isEmpty = false)
    (hconv : findConv st inp.conversationId uid = some c)
    (hpay : processPayload inp = .accept mc mt pf)
    (hne : ((trimL mc).isEmpty && pf.isNone) = false)
    (hkey : inp.messageId.isEmpty = false)
    (hnew : st.messages.any (fun m => m.messageId == inp.messageId) = false) :
    (sendMessage (sendMessage st uid inp t1 fresh1).st uid inp t2 fresh2).st
        = (sendMessage st uid inp t1 fresh1).st
      ∧ ((sendMessage st uid inp t1 fresh1).st.messages.filter
            (fun m => m.messageId == inp.messageId)).length = 1
      ∧ (∀ cv ∈ (sendMessage st uid inp t1 fresh1).st.conversations,
            cv.id = inp.conversationId → cv.lastActivity = t1)
      ∧ (sendMessage (sendMessage st uid inp t1 fresh1).st uid inp t2 fresh2).events
          = [.errEv errSendFailed (some (.textInfo dupKeyText))] := by
  have hjs : ∀ x, jsOr inp.messageId x = inp.messageId := by
    intro x; unfold jsOr; rw [hkey]; simp
  have e1 : sendMessage st uid inp t1 fresh1 = sendPersistPhase st uid inp mc mt pf t1 fresh1 := by
    simp only [sendMessage, hsid, Bool.false_eq_true, if_false, hconv, hpay]
  have e2 : sendPersistPhase st uid inp mc mt pf t1 fresh1 =
      ⟨{ st with
           messages := st.messages ++
             [{ id := st.nextId, messageId := inp.messageId, sender := uid,
                conversation := inp.conversationId, content := trimL mc,
                type := mt, sessionId := inp.sessionId, fileData := pf,
                readBy := [], deletedFor := [], isDeleted := false, deletedAt := none,
                deletedBy := none, deliveryStatus := statusSent, sentAt := t1,
                deliveredAt := none, readAt := none, createdAt := t1 }],
           conversations := bumpConv st.conversations inp.conversationId st.nextId t1,
           nextId := st.nextId + 1 },
        [.messageReceived inp.conversationId st.nextId (trimL mc),
         .messageSentAck inp.messageId t1 statusSent],
        some st.nextId⟩ := by
    unfold sendPersistPhase
    rw [hne]
    simp only [Bool.false_eq_true, if_false, hjs, hnew]
  have hconv2 : findConv
      (⟨bumpConv st.conversations inp.conversationId st.nextId t1,
        st.messages ++
           [{ id := st.nextId, messageId := inp.messageId, sender := uid,
              conversation := inp.conversationId, content := trimL mc,
              type := mt, sessionId := inp.sessionId, fileData := pf,
              readBy := [], deletedFor := [], isDeleted := false, deletedAt := none,
              deletedBy := none, deliveryStatus := statusSent, sentAt := t1,
              deliveredAt := none, readAt := none, createdAt := t1 }],
        st.autoMessages, st.nextId + 1⟩ : Store) inp.conversationId uid
      = some (if c.id == inp.conversationId then
          { c with lastMessage := some st.nextId, lastActivity := t1 } else c) := by
    unfold findConv at hconv ⊢
    rw [bumpConv_find?, hconv]
    rfl
  have e3 : sendMessage
      (⟨bumpConv st.conversations inp.conversationId st.nextId t1,
        st.messages ++
           [{ id := st.nextId, messageId := inp.messageId, sender := uid,
              conversation := inp.conversationId, content := trimL mc,
              type := mt, sessionId := inp.sessionId, fileData := pf,
              readBy := [], deletedFor := [], isDeleted := false, deletedAt := none,
              deletedBy := none, deliveryStatus := statusSent, sentAt := t1,
              deliveredAt := none, readAt := none, createdAt := t1 }],
        st.autoMessages, st.nextId + 1⟩ : Store) uid inp t2 fresh2
      = ⟨⟨bumpConv st.conversations inp.conversationId st.nextId t1,
        st.messages ++
           [{ id := st.nextId, messageId := inp.messageId, sender := uid,
              conversation := inp.conversationId, content := trimL mc,
              type := mt, sessionId := inp.sessionId, fileData := pf,
              readBy := [], deletedFor := [], isDeleted := false, deletedAt := none,
              deletedBy := none, deliveryStatus := statusSent, sentAt := t1,
              deliveredAt := none, readAt := none, createdAt := t1 }],
        st.autoMessages, st.nextId + 1⟩,
        [.errEv errSendFailed (some (.textInfo dupKeyText))], none⟩ := by
    simp only [sendMessage, hsid, Bool.false_eq_true, if_false, hconv2, hpay]
    unfold sendPersistPhase
    rw [hne]
    simp only [Bool.false_eq_true, if_false, hjs]
    simp [List.any_append, hnew]
  rw [e1, e2]
  dsimp only
  refine ⟨?_, ?_, ?_, ?_⟩
  · exact congrArg SendResult.st e3
  · simp only [List.filter_append]
    have h0 : st.messages.filter (fun m => m.messageId == inp.messageId) = [] := by
      rw [List.filter_eq_nil_iff]
      intro a ha
      have := (List.any_eq_false.mp hnew) a ha
      simpa using this
    simp [h0]
  · intro cv hcv hid
    unfold bumpConv at hcv
    rw [List.mem_map] at hcv
    obtain ⟨x, hx, hfx⟩ := hcv
    subst hfx
    by_cases hxc : (x.id == inp.conversationId) = true
    · rw [if_pos hxc]
    · rw [if_neg hxc] at hid ⊢
      exact absurd hid (by simpa using hxc)
  · exact congrArg SendResult.events e3

/-- Witness for claim C1 at a concrete store, conversation and send. -/
theorem send_message_idempotent_retry_witness :
    (wInp.sessionId.isEmpty = false)
  ∧ (findConv wStore wInp.conversationId 1 = some wConv)
  ∧ (processPayload wInp = .accept (("hi").data) (("text").data) none)
  ∧ (((trimL (("hi").data)).isEmpty && (none : Option StoredFile).isNone) = false)
  ∧ (wInp.messageId.isEmpty = false)
  ∧ ((wStore.messages.any fun m => m.messageId == wInp.messageId) = false)
  ∧ ((sendMessage (sendMessage wStore 1 wInp 1000 (("f1").data)).st 1 wInp 2000
        (("f2").data)).st
        = (sendMessage wStore 1 wInp 1000 (("f1").data)).st
      ∧ ((sendMessage wStore 1 wInp 1000 (("f1").data)).st.messages.filter
            (fun m => m.messageId == wInp.messageId)).length = 1
      ∧ (∀ cv ∈ (sendMessage wStore 1 wInp 1000 (("f1").data)).st.conversations,
            cv.id = wInp.conversationId → cv.lastActivity = 1000)
      ∧ (sendMessage (sendMessage wStore 1 wInp 1000 (("f1").data)).st 1 wInp 2000
            (("f2").data)).events
          = [.errEv errSendFailed (some (.textInfo dupKeyText))]) :=
  ⟨by decide, by decide, by decide, by decide, by decide, by decide,
   send_message_idempotent_retry wStore 1 1000 2000 wInp (("f1").data) (("f2").data) wConv
     (("hi").data) (("text").data) none (by decide) (by decide) (by decide) (by decide)
     (by decide) (by decide)⟩

/-- Claim C2 (code bug): the spec requires the observed sequence of
deliveryStatus values of a message to be a subsequence of
[sent, delivered, read], never regressing.  The code violates this: user 1
sends a message (status sent); user 2 marks it read before the 100ms
promotion timer fires (status read); the timer body then saves its captured
document unconditionally, overwriting read back to delivered.  The observed
sequence [sent, read, delivered] regresses, which this theorem evaluates on
the model. -/
theorem delivered_promotion_regresses_read_status :
    ((sendMessage wStore 1 wInp 1000 (("f1").data)).st.messages.map Message.deliveryStatus
        = [statusSent])
  ∧ (((markMessagesRead (sendMessage wStore 1 wInp 1000 (("f1").data)).st 2 [100] 1
        (("s2").data) 1500).1.messages.map Message.deliveryStatus) = [statusRead])
  ∧ (((promoteDelivered (markMessagesRead (sendMessage wStore 1 wInp 1000 (("f1").data)).st 2
        [100] 1 (("s2").data) 1500).1 100 1600).1.messages.map Message.deliveryStatus)
        = [statusDelivered])
  ∧ (∃ m ∈ (promoteDelivered (markMessagesRead (sendMessage wStore 1 wInp 1000 (("f1").data)).st 2
        [100] 1 (("s2").data) 1500).1 100 1600).1.messages,
        m.readBy ≠ [] ∧ m.deliveryStatus = statusDelivered)
  ∧ ¬ ([statusSent, statusRead, statusDelivered].Sublist
        [statusSent, statusDelivered, statusRead]) := by decide

/-- Claim C4 counterexample: user 3 is not a participant of conversation 1,
yet a mark_messages_read attempt by user 3 emits NO event at all (the handler
returns silently on the failed participant lookup), refuting the part of the
claim that says the caller receives an error for mark_messages_read. -/
theorem mark_read_unauthorized_no_error_counterexample :
    ((3 ∈ wConv.participants) → False)
  ∧ (markMessagesRead rStore 3 [10] 1 (("s9").data) 5).2 = []
  ∧ (markMessagesRead rStore 3 [10] 1 (("s9").data) 5).1 = rStore := by decide

/-- Claim C4 (corrected): for every user not among the participants of the
target conversation, send_message and mark_messages_read cause no Message
persistence and no readBy mutation; send_message answers with the error
event `Conversation not found` (not a forbidden-style message), while
mark_messages_read returns silently without emitting any error. -/
theorem unauthorized_participant_rejection
    (st : Store) (uid : Nat) (inp : SendInput) (ids : List Nat) (sid : List Char)
    (now t : Nat) (fresh : List Char)
    (hnp : ∀ c ∈ st.conversations, c.id = inp.conversationId → uid ∉ c.participants)
    (hsid : inp.sessionId.isEmpty = false) :
    sendMessage st uid inp t fresh = ⟨st, [.errEv errConvNotFound none], none⟩
  ∧ markMessagesRead st uid ids inp.conversationId sid now = (st, []) := by
  have hfc : findConv st inp.conversationId uid = none := by
    unfold findConv
    rw [List.find?_eq_none]
    intro c hc
    by_cases h : c.id = inp.conversationId
    · have h2 := hnp c hc h
      simp [h, h2]
    · simp [h]
  constructor
  · simp only [sendMessage, hsid, Bool.false_eq_true, if_false, hfc]
  · unfold markMessagesRead
    by_cases hs : sid.isEmpty = true
    · simp [hs]
    · simp [hs, hfc]

/-- Witness for the corrected claim C4 at a concrete store and caller. -/
theorem unauthorized_participant_rejection_witness :
    (∀ c ∈ rStore.conversations, c.id = wInp.conversationId → 3 ∉ c.participants)
  ∧ (wInp.sessionId.isEmpty = false)
  ∧ (sendMessage rStore 3 wInp 5 (("f4").data)
        = ⟨rStore, [.errEv errConvNotFound none], none⟩
      ∧ markMessagesRead rStore 3 [10] wInp.conversationId (("s9").data) 5 = (rStore, [])) :=
  ⟨by decide, by decide,
   unauthorized_participant_rejection rStore 3 wInp [10] (("s9").data) 5 5 (("f4").data)
     (by decide) (by decide)⟩

lemma applyReadOne_unique (uid : Nat) (ids : List Nat) (cid : Nat) (sid : List Char)
    (now : Nat) (m : Message) (h : readByUnique m) :
    readByUnique (applyReadOne uid ids cid sid now m) := by
  unfold applyReadOne
  by_cases he : eligibleRead uid ids cid m = true
  · rw [if_pos he]
    unfold readByUnique at h ⊢
    simp only [List.map_append, List.map_cons, List.map_nil]
    rw [List.nodup_append]
    refine ⟨h, List.nodup_singleton _, ?_⟩
    intro a ha hb
    simp only [List.mem_singleton] at hb
    simp only [List.mem_map] at ha
    obtain ⟨r, hr, hru⟩ := ha
    have he3 : (m.readBy.any fun x => x.user == uid) = false := by
      simp only [eligibleRead, Bool.and_eq_true, Bool.not_eq_true'] at he
      exact he.1.1.2
    have h4 := List.any_eq_false.mp he3 r hr
    exact h4 (by simp [hru, hb])
  · rw [if_neg he]; exact h

lemma markMessagesRead_messages (st : Store) (uid : Nat) (ids : List Nat) (cid : Nat)
    (sid : List Char) (now : Nat) :
    (markMessagesRead st uid ids cid sid now).1.messages = st.messages
      ∨ (markMessagesRead st uid ids cid sid now).1.messages
          = st.messages.map (applyReadOne uid ids cid sid now) := by
  unfold markMessagesRead
  by_cases hs : sid.isEmpty = true
  · simp [hs]
  · cases hfc : findConv st cid uid
    · simp [hs, hfc]
    · right
      simp only [hs, Bool.false_eq_true, if_false, hfc]
      split <;> rfl

lemma mark_preserves_unique (st : Store) (uid : Nat) (ids : List Nat) (cid : Nat)
    (sid : List Char) (now : Nat) (h : ∀ m ∈ st.messages, readByUnique m) :
    ∀ m' ∈ (markMessagesRead st uid ids cid sid now).1.messages, readByUnique m' := by
  rcases markMessagesRead_messages st uid ids cid sid now with he | he <;> rw [he]
  · exact h
  · intro m' hm'
    rw [List.mem_map] at hm'
    obtain ⟨x, hx, rfl⟩ := hm'
    exact applyReadOne_unique uid ids cid sid now x (h x hx)

lemma calls_preserve_unique (calls : List ReadCall) (st : Store)
    (h : ∀ m ∈ st.messages, readByUnique m) :
    ∀ m' ∈ (applyReadCalls st calls).messages, readByUnique m' := by
  induction calls generalizing st with
  | nil => exact h
  | cons c rest ih =>
    exact ih _ (mark_preserves_unique st c.uid c.ids c.cid c.sid c.now h)

/-- Claim C3 (confirmed): mark_messages_read updates exactly the messages of
the requested conversation that are not already read by the caller and not
deleted for the caller (per-document atomic updateMany, modelled as a map);
each updated message gains exactly one appended readBy entry
(caller, now, session) and status read; ineligible messages are untouched;
and under any sequence of (concurrently interleaved) mark-read calls the
readBy list keeps at most one entry per user. -/
theorem mark_read_scope_and_readBy_unique
    (st : Store) (uid : Nat) (ids : List Nat) (cid : Nat) (sid : List Char) (now : Nat)
    (c : Conversation)
    (hsid : sid.isEmpty = false)
    (hconv : findConv st cid uid = some c) :
    ((markMessagesRead st uid ids cid sid now).1.messages
        = st.messages.map (applyReadOne uid ids cid sid now))
  ∧ (∀ m, eligibleRead uid ids cid m = true →
        applyReadOne uid ids cid sid now m
          = { m with readBy := m.readBy ++ [⟨uid, now, sid⟩],
                     deliveryStatus := statusRead, readAt := some now })
  ∧ (∀ m, eligibleRead uid ids cid m = false → applyReadOne uid ids cid sid now m = m)
  ∧ (∀ calls : List ReadCall, (∀ m ∈ st.messages, readByUnique m) →
        ∀ m' ∈ (applyReadCalls st calls).messages, readByUnique m') := by
  refine ⟨?_, ?_, ?_, ?_⟩
  · unfold markMessagesRead
    simp only [hsid, Bool.false_eq_true, if_false, hconv]
    split <;> rfl
  · intro m hm
    unfold applyReadOne
    rw [if_pos hm]
  · intro m hm
    unfold applyReadOne
    rw [if_neg (by simp [hm])]
  · intro calls h
    exact calls_preserve_unique calls st h

/-- Witness for claim C3 on a store holding an eligible message, an
already-read message, a cross-conversation message and a deleted-for-caller
message. -/
theorem mark_read_scope_and_readBy_unique_witness :
    ((("sB").data : List Char).isEmpty = false)
  ∧ (findConv rStore 1 2 = some wConv)
  ∧ (((markMessagesRead rStore 2 [10, 11, 12, 13] 1 (("sB").data) 7).1.messages
        = rStore.messages.map (applyReadOne 2 [10, 11, 12, 13] 1 (("sB").data) 7))
      ∧ (∀ m, eligibleRead 2 [10, 11, 12, 13] 1 m = true →
            applyReadOne 2 [10, 11, 12, 13] 1 (("sB").data) 7 m
              = { m with readBy := m.readBy ++ [⟨2, 7, ("sB").data⟩],
                         deliveryStatus := statusRead, readAt := some 7 })
      ∧ (∀ m, eligibleRead 2 [10, 11, 12, 13] 1 m = false →
            applyReadOne 2 [10, 11, 12, 13] 1 (("sB").data) 7 m = m)
      ∧ (∀ calls : List ReadCall, (∀ m ∈ rStore.messages, readByUnique m) →
            ∀ m' ∈ (applyReadCalls rStore calls).messages, readByUnique m')) :=
  ⟨by decide, by decide,
   mark_read_scope_and_readBy_unique rStore 2 [10, 11, 12, 13] 1 (("sB").data) 7 wConv
     (by decide) (by decide)⟩

lemma msgPres_id : msgPres (fun x => x) := fun _ => ⟨rfl, fun h => h⟩

lemma msgPres_comp {f g : Message → Message} (hf : msgPres f) (hg : msgPres g) :
    msgPres (fun x => f (g x)) := by
  intro x
  exact ⟨((hf (g x)).1).trans (hg x).1, fun h => (hf (g x)).2 ((hg x).2 h)⟩

lemma delMultiLoop_messages (uid cid now : Nat) (faults : List Nat) (ids : List Nat) :
    ∀ st : Store, ∃ f, (delMultiLoop uid cid now faults st ids).1.messages
        = st.messages.map f ∧ msgPres f := by
  induction ids with
  | nil =>
    intro st
    exact ⟨fun x => x, by simp [delMultiLoop], msgPres_id⟩
  | cons i rest ih =>
    intro st
    unfold delMultiLoop
    by_cases hfa : faults.contains i = true
    · rw [if_pos hfa]; exact ih st
    · rw [if_neg hfa]
      cases hfd : st.messages.find? (fun m => m.id == i) with
      | none => exact ih st
      | some m =>
        dsimp only
        by_cases hmc : (m.conversation == cid) = true
        · rw [if_pos hmc]
          obtain ⟨f, hf, hp⟩ := ih
            { st with messages := st.messages.map (fun x =>
                if x.id == i then applyDeleteForMe uid now x else x) }
          refine ⟨fun x => f (if x.id == i then applyDeleteForMe uid now x else x), ?_, ?_⟩
          · simpa [List.map_map, Function.comp] using hf
          · refine msgPres_comp hp ?_
            intro x
            dsimp only
            by_cases hx : (x.id == i) = true
            · rw [if_pos hx]
              unfold applyDeleteForMe
              split
              · exact ⟨rfl, fun h => h⟩
              · exact ⟨rfl, fun h => h⟩
            · rw [if_neg hx]
              exact ⟨rfl, fun h => h⟩
        · rw [if_neg hmc]
          exact ih st

lemma applyReadOne_pres (uid : Nat) (ids : List Nat) (cid : Nat) (sid : List Char)
    (now : Nat) : msgPres (applyReadOne uid ids cid sid now) := by
  intro x
  unfold applyReadOne
  split
  · exact ⟨rfl, fun h => h⟩
  · exact ⟨rfl, fun h => h⟩

lemma shape_of_append (base extra : List Message) :
    ∃ (f : Message → Message) (tail : List Message),
      base ++ extra = base.map f ++ tail ∧ msgPres f :=
  ⟨fun x => x, extra, by simp, msgPres_id⟩

lemma applyOp_messages_shape (st : Store) (op : Op) :
    ∃ (f : Message → Message) (tail : List Message),
      (applyOp st op).messages = st.messages.map f ++ tail ∧ msgPres f := by
  have triv : ∃ (f : Message → Message) (tail : List Message),
      st.messages = st.messages.map f ++ tail ∧ msgPres f :=
    ⟨fun x => x, [], by simp, msgPres_id⟩
  cases op with
  | send uid inp now fresh =>
    show ∃ f tail, (sendMessage st uid inp now fresh).st.messages = _ ∧ _
    unfold sendMessage
    split
    · exact triv
    · split
      · exact triv
      · split
        · exact triv
        · unfold sendPersistPhase
          split
          · exact triv
          · dsimp only
            split
            · exact triv
            · exact shape_of_append _ _
  | promote mid now =>
    show ∃ f tail, (promoteDelivered st mid now).1.messages = _ ∧ _
    unfold promoteDelivered
    split
    · exact triv
    · refine ⟨fun x => if (x.id == mid) = true then
        { x with deliveryStatus := statusDelivered, deliveredAt := some now } else x, [], ?_, ?_⟩
      · split <;> simp
      · intro x
        dsimp only
        split
        · exact ⟨rfl, fun h => h⟩
        · exact ⟨rfl, fun h => h⟩
  | markRead uid ids cid sid now =>
    show ∃ f tail, (markMessagesRead st uid ids cid sid now).1.messages = _ ∧ _
    rcases markMessagesRead_messages st uid ids cid sid now with he | he <;> rw [he]
    · exact triv
    · exact ⟨applyReadOne uid ids cid sid now, [], by simp,
        applyReadOne_pres uid ids cid sid now⟩
  | del uid mid dt cid now =>
    show ∃ f tail, (deleteMessage st uid mid dt cid now).1.messages = _ ∧ _
    unfold deleteMessage
    split
    · exact triv
    · split
      · exact triv
      · split
        · exact triv
        · split
          · split
            · exact triv
            · split
              · exact triv
              · refine ⟨fun x => if (x.id == mid) = true then
                  { x with isDeleted := true, deletedAt := some now, deletedBy := some uid }
                  else x, [], ?_, ?_⟩
                · simp
                · intro x
                  dsimp only
                  split
                  · exact ⟨rfl, fun _ => rfl⟩
                  · exact ⟨rfl, fun h => h⟩
          · refine ⟨fun x => if (x.id == mid) = true then applyDeleteForMe uid now x else x,
              [], ?_, ?_⟩
            · simp
            · intro x
              dsimp only
              split
              · unfold applyDeleteForMe
                split
                · exact ⟨rfl, fun h => h⟩
                · exact ⟨rfl, fun h => h⟩
              · exact ⟨rfl, fun h => h⟩
  | delMulti uid ids cid now faults =>
    show ∃ f tail, (deleteMultipleMessages st uid ids cid now faults).1.messages = _ ∧ _
    unfold deleteMultipleMessages
    split
    · exact triv
    · split
      · exact triv
      · obtain ⟨f, hf, hp⟩ := delMultiLoop_messages uid cid now faults ids st
        exact ⟨f, [], by simpa using hf, hp⟩
  | consume payload dbFault now fresh =>
    show ∃ f tail, (consumerStep st payload dbFault now fresh).1.messages = _ ∧ _
    unfold consumerStep
    cases payload with
    | none => exact triv
    | some w =>
      dsimp only
      unfold processAutoMessage
      split
      · exact triv
      · split
        · exact triv
        · split
          · exact triv
          · dsimp only
            split
            · cases hfp : findPrivateConv st _ _ <;> simp only [hfp] <;> exact triv
            · cases hfp : findPrivateConv st _ _ <;> simp only [hfp] <;>
                exact shape_of_append _ _

lemma isDeleted_permanent_fold (ops : List Op) :
    ∀ (st : Store) (m : Message), m ∈ st.messages → m.isDeleted = true →
      ∃ m' ∈ (ops.foldl applyOp st).messages, m'.id = m.id ∧ m'.isDeleted = true := by
  induction ops with
  | nil => exact fun st m hm hd => ⟨m, hm, rfl, hd⟩
  | cons op rest ih =>
    intro st m hm hd
    obtain ⟨f, tail, hshape, hpres⟩ := applyOp_messages_shape st op
    have hm2 : f m ∈ (applyOp st op).messages := by
      rw [hshape]
      exact List.mem_append_left _ (List.mem_map_of_mem f hm)
    obtain ⟨m2, hmem, hid, hdel⟩ := ih (applyOp st op) (f m) hm2 ((hpres m).2 hd)
    exact ⟨m2, hmem, hid.trans (hpres m).1, hdel⟩

/-- Claim C6 (confirmed): delete-for-everyone succeeds exactly when the
caller is the original sender and createdAt is within the last hour, setting
isDeleted true; a non-sender gets the authorization error, an in-window
failure and an out-of-window attempt by the sender gets the distinct
time-limit error; the two errors are distinguishable; and isDeleted = true
is permanent: the document survives every further modelled operation with
the flag still set. -/
theorem delete_for_everyone_auth_and_window
    (st : Store) (uid mid cid now : Nat) (m : Message) (c : Conversation)
    (hm : st.messages.find? (fun x => x.id == mid) = some m)
    (hc : st.conversations.find? (fun x => x.id == m.conversation) = some c)
    (hpart : c.participants.contains uid = true) :
    ((m.sender = uid ∧ ¬ m.createdAt < now - 3600000) →
        deleteMessage st uid mid dtForEveryone cid now
          = ({ st with messages := st.messages.map (fun x =>
                if x.id == mid then
                  { x with isDeleted := true, deletedAt := some now, deletedBy := some uid }
                else x) },
             [.deletedForEveryone cid mid uid]))
  ∧ (m.sender ≠ uid →
        deleteMessage st uid mid dtForEveryone cid now = (st, [.errEv errOnlySender none]))
  ∧ (m.sender = uid → m.createdAt < now - 3600000 →
        deleteMessage st uid mid dtForEveryone cid now = (st, [.errEv errDeleteWindow none]))
  ∧ errOnlySender ≠ errDeleteWindow
  ∧ (∀ (ops : List Op) (x : Message), x ∈ st.messages → x.isDeleted = true →
        ∃ x' ∈ (ops.foldl applyOp st).messages, x'.id = x.id ∧ x'.isDeleted = true) := by
  have hbase : ∀ r : Store × List Ev,
      deleteMessage st uid mid dtForEveryone cid now = r ↔
      (if (m.sender == uid) = false then (st, [.errEv errOnlySender none])
       else if m.createdAt < now - 3600000 then (st, [.errEv errDeleteWindow none])
       else ({ st with messages := st.messages.map (fun x =>
                if x.id == mid then
                  { x with isDeleted := true, deletedAt := some now, deletedBy := some uid }
                else x) },
             ([.deletedForEveryone cid mid uid] : List Ev))) = r := by
    intro r
    unfold deleteMessage
    simp only [hm, hc]
    rw [if_neg (by simpa using hpart), if_pos (by simp)]
    by_cases hs : (m.sender == uid) = false
    · rw [if_pos (by simpa using hs), if_pos hs]
    · rw [if_neg (by simpa using hs), if_neg hs]
  refine ⟨?_, ?_, ?_, by decide, fun ops x hx hd => isDeleted_permanent_fold ops st x hx hd⟩
  · rintro ⟨hs, hw⟩
    rw [hbase]
    rw [if_neg (by simp [hs]), if_neg hw]
  · intro hs
    rw [hbase]
    rw [if_pos (by simp; exact fun h => absurd h hs)]
  · intro hs hw
    rw [hbase]
    rw [if_neg (by simp [hs]), if_pos hw]

/-- Witness for claim C6: a message created 59 minutes ago is deletable by
its sender; one created 61 minutes ago is not; a non-sender is refused with
the authorization error. -/
theorem delete_for_everyone_auth_and_window_witness :
    (dStore.messages.find? (fun x => x.id == 5) = some dMsg)
  ∧ (dStore.conversations.find? (fun x => x.id == dMsg.conversation) = some wConv)
  ∧ (wConv.participants.contains 1 = true)
  ∧ (wConv.participants.contains 2 = true)
  ∧ (deleteMessage dStore 1 5 dtForEveryone 1 (10000000 + 59 * 60000)
      = ({ dStore with messages := dStore.messages.map (fun x =>
            if x.id == 5 then
              { x with isDeleted := true, deletedAt := some (10000000 + 59 * 60000),
                       deletedBy := some 1 }
            else x) },
         [.deletedForEveryone 1 5 1]))
  ∧ (deleteMessage dStore 1 5 dtForEveryone 1 (10000000 + 61 * 60000)
      = (dStore, [.errEv errDeleteWindow none]))
  ∧ (deleteMessage dStore 2 5 dtForEveryone 1 (10000000 + 59 * 60000)
      = (dStore, [.errEv errOnlySender none])) :=
  ⟨by decide, by decide, by decide, by decide,
   (delete_for_everyone_auth_and_window dStore 1 5 1 (10000000 + 59 * 60000) dMsg wConv
      (by decide) (by decide) (by decide)).1 ⟨by decide, by decide⟩,
   (delete_for_everyone_auth_and_window dStore 1 5 1 (10000000 + 61 * 60000) dMsg wConv
      (by decide) (by decide) (by decide)).2.2.1 (by decide) (by decide),
   (delete_for_everyone_auth_and_window dStore 2 5 1 (10000000 + 59 * 60000) dMsg wConv
      (by decide) (by decide) (by decide)).2.1 (by decide)⟩

lemma applyDeleteForMe_id (uid now : Nat) (m : Message) :
    (applyDeleteForMe uid now m).id = m.id := by
  unfold applyDeleteForMe; split <;> rfl

lemma applyDeleteForMe_conversation (uid now : Nat) (m : Message) :
    (applyDeleteForMe uid now m).conversation = m.conversation := by
  unfold applyDeleteForMe; split <;> rfl

lemma applyDeleteForMe_idem (uid now : Nat) (m : Message) :
    applyDeleteForMe uid now (applyDeleteForMe uid now m) = applyDeleteForMe uid now m := by
  unfold applyDeleteForMe
  by_cases h : (m.deletedFor.any fun e => e.user == uid) = true
  · rw [if_pos h, if_pos h]
  · rw [if_neg h]
    rw [if_pos (by simp)]

lemma delForMeIf_id (uid now : Nat) (s : List Nat) (m : Message) :
    (delForMeIf uid now s m).id = m.id := by
  unfold delForMeIf; split
  · exact applyDeleteForMe_id uid now m
  · rfl

lemma delForMeIf_congr (uid now : Nat) (s1 s2 : List Nat)
    (h : ∀ n, s1.contains n = s2.contains n) :
    delForMeIf uid now s1 = delForMeIf uid now s2 := by
  funext m
  unfold delForMeIf
  rw [h]

lemma step_compose (uid now i : Nat) (don : List Nat) (msgs : List Message) :
    (msgs.map (delForMeIf uid now don)).map
        (fun x => if x.id == i then applyDeleteForMe uid now x else x)
      = msgs.map (delForMeIf uid now (i :: don)) := by
  rw [List.map_map]
  apply List.map_congr_left
  intro x _
  simp only [Function.comp]
  by_cases hdon : don.contains x.id = true
  · have hc1 : ((i :: don).contains x.id) = true := by
      rw [List.contains_cons, hdon]
      simp
    have hy : delForMeIf uid now don x = applyDeleteForMe uid now x := by
      unfold delForMeIf; rw [if_pos hdon]
    rw [hy]
    by_cases hxi : (x.id == i) = true
    · rw [if_pos (by rw [applyDeleteForMe_id]; exact hxi), applyDeleteForMe_idem]
      unfold delForMeIf
      rw [if_pos hc1]
    · rw [if_neg (by rw [applyDeleteForMe_id]; exact hxi)]
      unfold delForMeIf
      rw [if_pos hc1]
  · have hy : delForMeIf uid now don x = x := by
      unfold delForMeIf; rw [if_neg hdon]
    rw [hy]
    by_cases hxi : (x.id == i) = true
    · have hc1 : ((i :: don).contains x.id) = true := by
        rw [List.contains_cons, hxi]
        simp
      rw [if_pos hxi]
      unfold delForMeIf
      rw [if_pos hc1]
    · have hc0 : ¬ ((i :: don).contains x.id) = true := by
        rw [List.contains_cons]
        simp only [Bool.or_eq_true]
        rintro (h | h)
        · exact hxi h
        · exact hdon h
      rw [if_neg hxi]
      unfold delForMeIf
      rw [if_neg hc0]

lemma find?_delForMeIf (uid now : Nat) (don : List Nat) (msgs : List Message) (i : Nat) :
    (msgs.map (delForMeIf uid now don)).find? (fun m => m.id == i)
      = (msgs.find? (fun m => m.id == i)).map (delForMeIf uid now don) := by
  rw [List.find?_map]
  congr 1
  refine congrArg (fun q => List.find? q msgs) ?_
  funext m
  simp only [Function.comp, delForMeIf_id]

lemma contains_append (n : Nat) (l1 l2 : List Nat) :
    (l1 ++ l2).contains n = (l1.contains n || l2.contains n) := by
  induction l1 with
  | nil => rfl
  | cons a l ihh =>
    rw [List.cons_append, List.contains_cons, List.contains_cons, ihh, Bool.or_assoc]

lemma delForMeIf_conversation (uid now : Nat) (don : List Nat) (m : Message) :
    (delForMeIf uid now don m).conversation = m.conversation := by
  unfold delForMeIf; split
  · exact applyDeleteForMe_conversation uid now m
  · rfl

lemma delMultiLoop_spec (uid cid now : Nat) (faults : List Nat) :
    ∀ (ids : List Nat) (st0 : Store) (don : List Nat),
      delMultiLoop uid cid now faults
          { st0 with messages := st0.messages.map (delForMeIf uid now don) } ids
        = ({ st0 with
              messages := st0.messages.map
                  (delForMeIf uid now (ids.filter (delMultiOk st0 cid faults) ++ don)) },
           (ids.filter (delMultiOk st0 cid faults)).length,
           ids.filter (delMultiOk st0 cid faults)) := by
  intro ids
  induction ids with
  | nil => intro st0 don; simp [delMultiLoop]
  | cons i rest ih =>
    intro st0 don
    unfold delMultiLoop
    by_cases hfa : faults.contains i = true
    · rw [if_pos hfa]
      have hif : i ∈ faults := by simpa using hfa
      have hok : delMultiOk st0 cid faults i = false := by
        simp [delMultiOk, hif]
      rw [List.filter_cons_of_neg (by simp [hok])]
      exact ih st0 don
    · rw [if_neg hfa]
      rw [show ({ st0 with messages := st0.messages.map (delForMeIf uid now don) } : Store).messages
            = st0.messages.map (delForMeIf uid now don) from rfl]
      rw [find?_delForMeIf]
      cases hf0 : st0.messages.find? (fun m => m.id == i) with
      | none =>
        have hok : delMultiOk st0 cid faults i = false := by
          simp [delMultiOk, hf0]
        rw [List.filter_cons_of_neg (by simp [hok])]
        exact ih st0 don
      | some m =>
        dsimp only [Option.map]
        by_cases hmc : (m.conversation == cid) = true
        · rw [if_pos (by rw [delForMeIf_conversation]; exact hmc)]
          have hif : i ∉ faults := by simpa using hfa
          have hok : delMultiOk st0 cid faults i = true := by
            simp [delMultiOk, hif, hf0, hmc]
          rw [List.filter_cons_of_pos (by simp [hok])]
          rw [step_compose]
          rw [show (delMultiLoop uid cid now faults
                { conversations := st0.conversations,
                  messages := st0.messages.map (delForMeIf uid now (i :: don)),
                  autoMessages := st0.autoMessages, nextId := st0.nextId } rest)
              = delMultiLoop uid cid now faults
                  { st0 with messages := st0.messages.map (delForMeIf uid now (i :: don)) } rest
              from rfl]
          rw [ih st0 (i :: don)]
          have hcg : delForMeIf uid now (rest.filter (delMultiOk st0 cid faults) ++ (i :: don))
              = delForMeIf uid now (i :: rest.filter (delMultiOk st0 cid faults) ++ don) := by
            apply delForMeIf_congr
            intro n
            rw [show (i :: rest.filter (delMultiOk st0 cid faults) ++ don)
                  = ((i :: rest.filter (delMultiOk st0 cid faults)) ++ don) from rfl]
            rw [contains_append, contains_append, List.contains_cons, List.contains_cons]
            cases hn1 : (n == i) <;>
              cases hn2 : (rest.filter (delMultiOk st0 cid faults)).contains n <;>
              cases hn3 : don.contains n <;> simp [hn1, hn2, hn3]
          rw [hcg]
          rfl
        · rw [if_neg (by rw [delForMeIf_conversation]; exact hmc)]
          have hok : delMultiOk st0 cid faults i = false := by
            simp [delMultiOk, hf0, hmc]
          rw [List.filter_cons_of_neg (by simp [hok])]
          exact ih st0 don

lemma delForMeIf_nil (uid now : Nat) (m : Message) : delForMeIf uid now [] m = m := rfl

lemma map_delForMeIf_nil (uid now : Nat) (st : Store) :
    ({ st with messages := st.messages.map (delForMeIf uid now []) } : Store) = st := by
  have h1 : st.messages.map (delForMeIf uid now []) = st.messages := by
    have h2 : st.messages.map (delForMeIf uid now []) = st.messages.map (fun m => m) := by
      apply List.map_congr_left
      intro x _
      exact delForMeIf_nil uid now x
    rw [h2, List.map_id']
  cases st
  simp only [h1]

/-- Claim C9 (confirmed): delete_multiple_messages applies delete-for-me
independently to exactly those requested ids that do not throw, exist, and
belong to the requested conversation (delMultiOk); a per-item failure does
not abort the remaining ids; and the emitted event reports the deleted ids,
the deleted count and the total requested count. -/
theorem bulk_delete_tolerance_and_counts
    (st : Store) (uid cid now : Nat) (ids faults : List Nat) (c : Conversation)
    (hids : ids.isEmpty = false)
    (hconv : findConv st cid uid = some c) :
    deleteMultipleMessages st uid ids cid now faults
      = ({ st with
            messages := st.messages.map
                (delForMeIf uid now (ids.filter (delMultiOk st cid faults))) },
         [.multipleDeleted (ids.filter (delMultiOk st cid faults))
            (ids.filter (delMultiOk st cid faults)).length ids.length]) := by
  unfold deleteMultipleMessages
  rw [if_neg (by simp [hids])]
  simp only [hconv]
  have hstart := delMultiLoop_spec uid cid now faults ids st []
  rw [map_delForMeIf_nil] at hstart
  rw [hstart]
  simp only [List.append_nil]

/-- Witness for claim C9: of the requested ids [5, 42, 9, 6], id 42 throws,
id 9 belongs to another conversation, and ids 5 and 6 are deleted — the item
after the failure is still processed and the counts report 2 of 4. -/
theorem bulk_delete_tolerance_and_counts_witness :
    (([5, 42, 9, 6] : List Nat).isEmpty = false)
  ∧ (findConv bStore 1 1 = some wConv)
  ∧ ([5, 42, 9, 6].filter (delMultiOk bStore 1 [42]) = [5, 6])
  ∧ deleteMultipleMessages bStore 1 [5, 42, 9, 6] 1 500 [42]
      = ({ bStore with
            messages := bStore.messages.map
                (delForMeIf 1 500 ([5, 42, 9, 6].filter (delMultiOk bStore 1 [42]))) },
         [.multipleDeleted ([5, 42, 9, 6].filter (delMultiOk bStore 1 [42]))
            ([5, 42, 9, 6].filter (delMultiOk bStore 1 [42])).length
            ([5, 42, 9, 6] : List Nat).length]) :=
  ⟨by decide, by decide, by decide,
   bulk_delete_tolerance_and_counts bStore 1 1 500 [5, 42, 9, 6] [42] wConv
     (by decide) (by decide)⟩

/-- Claim C7 (corrected): the consumer acknowledges and discards a work
item whose AutoMessage is missing or already isSent, creating no Message and
emitting nothing; a payload that fails to parse is negatively acknowledged
without requeue; an error thrown inside processAutoMessage is caught and
logged and the item is positively acknowledged (the nack of the claim never
fires for such errors); and on the success path one Message is created,
lastMessage and lastActivity are set on the (found or created) private
conversation, the AutoMessage is flipped to isSent with sentAt and
conversation set, and one message_received event goes to the recipient. -/
theorem consumer_skip_ack_and_drop
    (st : Store) (w : WorkItem) (dbFault : Bool) (now : Nat) (fresh : List Char) :
    (consumerStep st none dbFault now fresh = (st, [], .nackDrop))
  ∧ ((st.autoMessages.find? (fun a => a.id == w.autoMessageId) = none) →
        consumerStep st (some w) dbFault now fresh = (st, [], .ack))
  ∧ (∀ am, st.autoMessages.find? (fun a => a.id == w.autoMessageId) = some am →
        am.isSent = true →
        consumerStep st (some w) dbFault now fresh = (st, [], .ack))
  ∧ (∀ am, st.autoMessages.find? (fun a => a.id == w.autoMessageId) = some am →
        am.isSent = false → dbFault = true →
        consumerStep st (some w) dbFault now fresh = (st, [], .ack))
  ∧ (∀ am, st.autoMessages.find? (fun a => a.id == w.autoMessageId) = some am →
        am.isSent = false → dbFault = false →
        (st.messages.any (fun m => m.messageId == fresh)) = false →
        ∃ msg : Message,
          (consumerStep st (some w) dbFault now fresh).1.messages = st.messages ++ [msg]
          ∧ msg.content = am.content ∧ msg.sender = am.sender ∧ msg.type = ("text").data
          ∧ msg.deliveryStatus = statusSent
          ∧ (consumerStep st (some w) dbFault now fresh).2.1
              = [.messageReceived am.recipient msg.id msg.content]
          ∧ (consumerStep st (some w) dbFault now fresh).2.2 = .ack
          ∧ (∃ a2 ∈ (consumerStep st (some w) dbFault now fresh).1.autoMessages,
                a2.id = am.id ∧ a2.isSent = true ∧ a2.sentAt = some now
                  ∧ a2.conversation = some msg.conversation)
          ∧ (∃ cv ∈ (consumerStep st (some w) dbFault now fresh).1.conversations,
                cv.id = msg.conversation ∧ cv.lastMessage = some msg.id
                  ∧ cv.lastActivity = now ∧ cv.type = ctPrivate
                  ∧ cv.participants.contains am.sender = true
                  ∧ cv.participants.contains am.recipient = true)) := by
  refine ⟨rfl, ?_, ?_, ?_, ?_⟩
  · intro hn
    unfold consumerStep processAutoMessage
    simp only [hn]
  · intro am ham hs
    unfold consumerStep processAutoMessage
    simp only [ham, hs, if_true]
  · intro am ham hs hf
    unfold consumerStep processAutoMessage
    simp only [ham, hs, hf, Bool.false_eq_true, if_false, if_true]
  · intro am ham hs hf hdup
    have hmem : am ∈ st.autoMessages := List.mem_of_find?_eq_some ham
    have hpred : (am.id == w.autoMessageId) = true := by simpa using List.find?_some ham
    unfold consumerStep processAutoMessage
    simp only [ham, hs, hf, Bool.false_eq_true, if_false]
    cases hfp : findPrivateConv st am.sender am.recipient with
    | some c =>
      have hcmem : c ∈ st.conversations := List.mem_of_find?_eq_some hfp
      have hcpred := List.find?_some hfp
      simp only [Bool.and_eq_true] at hcpred
      dsimp only
      rw [if_neg (by simp [hdup])]
      refine ⟨_, rfl, rfl, rfl, rfl, rfl, rfl, trivial, ?_, ?_⟩
      · refine ⟨{ am with isSent := true, sentAt := some now, conversation := some c.id },
          ?_, rfl, rfl, rfl, rfl⟩
        have := List.mem_map_of_mem (fun a =>
          if (a.id == w.autoMessageId) = true then
            { a with isSent := true, sentAt := some now, conversation := some c.id }
          else a) hmem
        simpa [hpred] using this
      · refine ⟨{ c with lastMessage := some st.nextId, lastActivity := now }, ?_, rfl, rfl, rfl,
          ?_, ?_, ?_⟩
        · have := List.mem_map_of_mem (fun cv =>
            if (cv.id == c.id) = true then
              { cv with lastMessage := some st.nextId, lastActivity := now }
            else cv) hcmem
          unfold bumpConv
          simpa using this
        · have h3 : (c.type == ctPrivate) = true := hcpred.2
          simpa using h3
        · exact hcpred.1.1
        · exact hcpred.1.2
    | none =>
      dsimp only
      rw [if_neg (by simp [hdup])]
      refine ⟨_, rfl, rfl, rfl, rfl, rfl, rfl, trivial, ?_, ?_⟩
      · refine ⟨{ am with isSent := true, sentAt := some now, conversation := some st.nextId },
          ?_, rfl, rfl, rfl, rfl⟩
        have := List.mem_map_of_mem (fun a =>
          if (a.id == w.autoMessageId) = true then
            { a with isSent := true, sentAt := some now, conversation := some st.nextId }
          else a) hmem
        simpa [hpred] using this
      · have hmem2 : (⟨st.nextId, [am.sender, am.recipient], ctPrivate, none, now, true⟩ :
            Conversation) ∈ st.conversations ++
              [⟨st.nextId, [am.sender, am.recipient], ctPrivate, none, now, true⟩] := by
          simp
        have hmap := List.mem_map_of_mem (fun cv =>
          if (cv.id == st.nextId) = true then
            { cv with lastMessage := some (st.nextId + 1), lastActivity := now }
          else cv) hmem2
        refine ⟨⟨st.nextId, [am.sender, am.recipient], ctPrivate, some (st.nextId + 1), now,
          true⟩, ?_, rfl, rfl, rfl, rfl, ?_, ?_⟩
        · unfold bumpConv
          simp at hmap
          simp [hmap]
        · simp [List.contains_cons]
        · simp [List.contains_cons]

/-- Claim C7 counterexample: with a pending (unsent) AutoMessage present, a
processing error inside processAutoMessage (dbFault) is swallowed by its
internal catch, so the consumer ACKs the work item — refuting the claim that
any processing error is negatively acknowledged. -/
theorem consumer_nack_on_error_counterexample :
    ((cStore.autoMessages.find? (fun a => a.id == 7)).map AutoMessage.isSent = some false)
  ∧ (consumerStep cStore (some ⟨7⟩) true 200 (("u1").data) = (cStore, [], .ack))
  ∧ (AckDecision.ack ≠ AckDecision.nackDrop) := by decide

/-- Witness for the corrected claim C7 at a concrete store: the parse-error
nack and the full success path. -/
theorem consumer_skip_ack_and_drop_witness :
    (cStore.autoMessages.find? (fun a => a.id == (⟨7⟩ : WorkItem).autoMessageId) = some cAuto)
  ∧ (cAuto.isSent = false)
  ∧ ((cStore.messages.any (fun m => m.messageId == ("u1").data)) = false)
  ∧ (consumerStep cStore none false 200 (("u1").data) = (cStore, [], .nackDrop))
  ∧ (∃ msg : Message,
        (consumerStep cStore (some ⟨7⟩) false 200 (("u1").data)).1.messages
            = cStore.messages ++ [msg]
        ∧ msg.content = cAuto.content ∧ msg.sender = cAuto.sender
        ∧ msg.type = ("text").data ∧ msg.deliveryStatus = statusSent
        ∧ (consumerStep cStore (some ⟨7⟩) false 200 (("u1").data)).2.1
            = [.messageReceived cAuto.recipient msg.id msg.content]
        ∧ (consumerStep cStore (some ⟨7⟩) false 200 (("u1").data)).2.2 = .ack
        ∧ (∃ a2 ∈ (consumerStep cStore (some ⟨7⟩) false 200 (("u1").data)).1.autoMessages,
              a2.id = cAuto.id ∧ a2.isSent = true ∧ a2.sentAt = some 200
                ∧ a2.conversation = some msg.conversation)
        ∧ (∃ cv ∈ (consumerStep cStore (some ⟨7⟩) false 200 (("u1").data)).1.conversations,
              cv.id = msg.conversation ∧ cv.lastMessage = some msg.id
                ∧ cv.lastActivity = 200 ∧ cv.type = ctPrivate
                ∧ cv.participants.contains cAuto.sender = true
                ∧ cv.participants.contains cAuto.recipient = true)) :=
  ⟨by decide, by decide, by decide,
   (consumer_skip_ack_and_drop cStore ⟨7⟩ false 200 (("u1").data)).1,
   (consumer_skip_ack_and_drop cStore ⟨7⟩ false 200 (("u1").data)).2.2.2.2 cAuto
     (by decide) (by decide) rfl (by decide)⟩

/-! ## Planner lemmas -/
lemma swapAt_length (l : List Nat) (i j : Nat) : (swapAt l i j).length = l.length := by
  unfold swapAt
  simp

lemma fyAux_length (rand : List Nat) :
    ∀ (l : List Nat) (i : Nat), (fyAux l i rand).length = l.length := by
  induction rand with
  | nil =>
    intro l i
    cases i <;> rfl
  | cons r rs ih =>
    intro l i
    cases i with
    | zero => rfl
    | succ n =>
      show (fyAux (swapAt l (n + 1) (r % (n + 2))) n rs).length = l.length
      rw [ih, swapAt_length]

lemma shuffleArray_length (l rand : List Nat) : (shuffleArray l rand).length = l.length :=
  fyAux_length rand l (l.length - 1)

lemma buildPairs_length_aux :
    ∀ (n : Nat) (l : List Nat), l.length ≤ n → (buildPairs l).length = l.length / 2 := by
  intro n
  induction n with
  | zero =>
    intro l hl
    cases l with
    | nil => rfl
    | cons a r => simp at hl
  | succ n ih =>
    intro l hl
    match l with
    | [] => rfl
    | [a] => simp [buildPairs]
    | a :: b :: rest =>
      show ((a, b) :: buildPairs rest).length = (a :: b :: rest).length / 2
      simp only [List.length_cons]
      rw [ih rest (by simp at hl; omega)]
      omega

lemma buildPairs_length (l : List Nat) : (buildPairs l).length = l.length / 2 :=
  buildPairs_length_aux l.length l (le_refl _)

lemma mkAutoMessages_length :
    ∀ (ps : List (Nat × Nat)) (ts ds : List Nat) (now nid : Nat),
      (mkAutoMessages ps ts ds now nid).length = ps.length := by
  intro ps
  induction ps with
  | nil => intro ts ds now nid; rfl
  | cons p rest ih =>
    intro ts ds now nid
    show (_ :: mkAutoMessages rest ts.tail ds.tail now (nid + 1)).length = _
    simp only [List.length_cons]
    rw [ih]

lemma mkAutoMessages_mem :
    ∀ (ps : List (Nat × Nat)) (ts ds : List Nat) (now nid : Nat),
      ∀ a ∈ mkAutoMessages ps ts ds now nid,
        a.isQueued = false ∧ a.isSent = false ∧ a.content ∈ messageTemplates
          ∧ now ≤ a.sendDate ∧ a.sendDate < now + 86400000 := by
  intro ps
  induction ps with
  | nil => intro ts ds now nid a ha; cases ha
  | cons p rest ih =>
    intro ts ds now nid a ha
    cases ha with
    | head =>
      refine ⟨rfl, rfl, ?_, ?_, ?_⟩
      · have hlt : ts.headD 0 % messageTemplates.length < messageTemplates.length :=
          Nat.mod_lt _ (by decide)
        rw [List.getD_eq_getElem messageTemplates [] hlt]
        exact List.getElem_mem hlt
      · exact Nat.le_add_right now _
      · exact Nat.add_lt_add_left (Nat.mod_lt _ (by decide)) now
    | tail _ hrest => exact ih ts.tail ds.tail now (nid + 1) a hrest

/-- Claim C8 (confirmed): the planner creates no AutoMessages for fewer
than two active users and exactly floor(n/2) otherwise (shuffle preserves
length, adjacent pairing drops the odd user); every created AutoMessage
carries a template string, a send date within the next 24 hours and
isQueued = false, isSent = false; with 3 users exactly 1 is created, with 1
user exactly 0. -/
theorem planner_pairing (users rand ts ds : List Nat) (now nid : Nat) :
    (planAutomaticMessages users rand ts ds now nid).length
        = (if users.length < 2 then 0 else users.length / 2)
  ∧ (∀ a ∈ planAutomaticMessages users rand ts ds now nid,
        a.isQueued = false ∧ a.isSent = false ∧ a.content ∈ messageTemplates
          ∧ now ≤ a.sendDate ∧ a.sendDate < now + 86400000)
  ∧ (planAutomaticMessages [1, 2, 3] rand ts ds now nid).length = 1
  ∧ (planAutomaticMessages [1] rand ts ds now nid).length = 0 := by
  have hlen : ∀ us : List Nat, (planAutomaticMessages us rand ts ds now nid).length
      = if us.length < 2 then 0 else us.length / 2 := by
    intro us
    unfold planAutomaticMessages
    by_cases h : us.length < 2
    · rw [if_pos h, if_pos h]
      rfl
    · rw [if_neg h, if_neg h]
      rw [mkAutoMessages_length, buildPairs_length, shuffleArray_length]
  refine ⟨hlen users, ?_, ?_, ?_⟩
  · intro a ha
    unfold planAutomaticMessages at ha
    split at ha
    · cases ha
    · exact mkAutoMessages_mem _ ts ds now nid a ha
  · rw [hlen]
    rfl
  · rw [hlen]
    rfl

/-! ## File-size lemmas over the payload helpers -/
lemma startsWithL_append (l r p : List Char) (h : startsWithL l p = true) :
    startsWithL (l ++ r) p = true := by
  induction l generalizing p with
  | nil =>
    cases p with
    | nil => cases r <;> rfl
    | cons d ds => exact absurd h (by simp [startsWithL])
  | cons c cs ih =>
    cases p with
    | nil => rfl
    | cons d ds =>
      show startsWithL (c :: (cs ++ r)) (d :: ds) = true
      have h2 : (c == d) = true ∧ startsWithL cs ds = true := by
        simpa [startsWithL, Bool.and_eq_true] using h
      simp [startsWithL, h2.1, ih ds h2.2]

lemma includesL_nil (r : List Char) : includesL r [] = true := by
  cases r with
  | nil => rfl
  | cons c cs => simp [includesL, startsWithL]

lemma includesL_append_left (l r sub : List Char) (h : includesL l sub = true) :
    includesL (l ++ r) sub = true := by
  induction l with
  | nil =>
    have hs : sub = [] := by
      cases sub with
      | nil => rfl
      | cons d ds => exact absurd h (by simp [includesL, startsWithL])
    subst hs
    exact includesL_nil r
  | cons c cs ih =>
    show includesL (c :: (cs ++ r)) sub = true
    have h2 : startsWithL (c :: cs) sub = true ∨ includesL cs sub = true := by
      simpa [includesL, Bool.or_eq_true] using h
    rcases h2 with h2 | h2
    · have h3 := startsWithL_append (c :: cs) r sub h2
      simp only [includesL]
      rw [show (c :: cs) ++ r = c :: (cs ++ r) from rfl] at h3
      simp [h3]
    · simp [includesL, ih h2]

lemma afterComma_append (l r : List Char) (h : (',') ∈ l) :
    afterComma (l ++ r) = afterComma l ++ r := by
  induction l with
  | nil => cases h
  | cons c cs ih =>
    show afterComma (c :: (cs ++ r)) = _
    by_cases hc : (c == (',')) = true
    · simp [afterComma, hc]
    · have h2 : (',') ∈ cs := by
        cases h with
        | head => exact absurd (by decide) hc
        | tail _ h3 => exact h3
      simp [afterComma, hc, ih h2]

lemma roundedSize_replicate (n : Nat) :
    roundedSize (List.replicate n ('a')) = (3 * n + 2) / 4 := by
  unfold roundedSize
  rw [List.length_replicate]

lemma upToComma_replicate (n : Nat) :
    upToComma (List.replicate n ('a')) = List.replicate n ('a') := by
  induction n with
  | zero => rfl
  | succ k ih =>
    rw [List.replicate_succ]
    show (if (('a') == (',')) = true then [] else ('a') :: upToComma (List.replicate k ('a'))) = _
    rw [if_neg (by decide), ih, ← List.replicate_succ]

/-- Claim C5 (confirmed): a send whose file payload measures over the
per-category limit (image 10MB, video 50MB, audio 20MB, file 20MB via
maxSizeFor, category classified from the declared MIME type) is rejected
with a structured error naming the limit and the measured size — the size
being computed from the base64 payload length, not the declared size — and
no Message is persisted (the store is returned unchanged). -/
theorem file_size_limit_rejection
    (st : Store) (uid now : Nat) (inp : SendInput) (fresh : List Char)
    (fd : FileInput) (c : Conversation)
    (hsid : inp.sessionId.isEmpty = false)
    (hconv : findConv st inp.conversationId uid = some c)
    (hfd : inp.fileData = some fd)
    (hdata : strTruthy fd.data = true)
    (hmime : strTruthy fd.mime = true)
    (hover : roundedSize (base64Part (fixPayload fd.mime (optStr fd.data)))
        > maxSizeFor (classifyMime (optStr fd.mime))) :
    sendMessage st uid inp now fresh
      = ⟨st,
         [.errEv (sizeErrMsg (roundedMB (maxSizeFor (classifyMime (optStr fd.mime)))))
            (some (.sizeInfo
              (mbStr (roundedMB (roundedSize (base64Part (fixPayload fd.mime (optStr fd.data))))))
              (mbStr (roundedMB (maxSizeFor (classifyMime (optStr fd.mime)))))
              (classifyMime (optStr fd.mime))))],
         none⟩ := by
  have hpay : processPayload inp
      = .reject (.errEv (sizeErrMsg (roundedMB (maxSizeFor (classifyMime (optStr fd.mime)))))
          (some (.sizeInfo
            (mbStr (roundedMB (roundedSize (base64Part (fixPayload fd.mime (optStr fd.data))))))
            (mbStr (roundedMB (maxSizeFor (classifyMime (optStr fd.mime)))))
            (classifyMime (optStr fd.mime))))) := by
    unfold processPayload
    simp only [hfd]
    rw [if_pos hdata]
    rw [if_pos hmime, if_pos hover]
  unfold sendMessage
  simp only [hsid, Bool.false_eq_true, if_false, hconv, hpay]

/-- Witness for claim C5: an image payload whose 14000000-character base64
body measures 10500000 bytes (about 11MB rounded from the limit point of
view) exceeds the 10MB image limit and is rejected with the structured
error, leaving the store unchanged. -/
theorem file_size_limit_rejection_witness :
    ((wFileInp.sessionId : List Char).isEmpty = false)
  ∧ (findConv wStore 1 1 = some wConv)
  ∧ (wFileInp.fileData = some wFile)
  ∧ (strTruthy wFile.data = true)
  ∧ (strTruthy wFile.mime = true)
  ∧ (roundedSize (base64Part (fixPayload wFile.mime (optStr wFile.data)))
        > maxSizeFor (classifyMime (optStr wFile.mime)))
  ∧ (sendMessage wStore 1 wFileInp 1000 (("f5").data)
      = ⟨wStore,
         [.errEv (sizeErrMsg (roundedMB (maxSizeFor (classifyMime (optStr wFile.mime)))))
            (some (.sizeInfo
              (mbStr (roundedMB (roundedSize (base64Part (fixPayload wFile.mime (optStr wFile.data))))))
              (mbStr (roundedMB (maxSizeFor (classifyMime (optStr wFile.mime)))))
              (classifyMime (optStr wFile.mime))))],
         none⟩) := by
  have h1 : includesL bigPayload ((";base64,").data) = true :=
    includesL_append_left (("data:image/png;base64,").data) (List.replicate 14000000 ('a'))
      ((";base64,").data) (by decide)
  have h2 : startsWithL bigPayload (("data:").data) = true :=
    startsWithL_append (("data:image/png;base64,").data) (List.replicate 14000000 ('a'))
      (("data:").data) (by decide)
  have hcomma : includesL bigPayload ([(',')]) = true :=
    includesL_append_left (("data:image/png;base64,").data) (List.replicate 14000000 ('a'))
      ([(',')]) (by decide)
  have h3 : fixPayload wFile.mime (optStr wFile.data) = bigPayload := by
    unfold fixPayload
    rw [show optStr wFile.data = bigPayload from rfl]
    simp only [h1, h2, Bool.not_true, Bool.and_false, Bool.false_and, Bool.and_true,
      Bool.false_eq_true, if_false]
  have h4 : base64Part bigPayload = List.replicate 14000000 ('a') := by
    unfold base64Part
    rw [if_pos hcomma]
    unfold secondSegment
    rw [show bigPayload = ("data:image/png;base64,").data ++ List.replicate 14000000 ('a')
      from rfl]
    rw [afterComma_append (("data:image/png;base64,").data) (List.replicate 14000000 ('a'))
      (by decide)]
    rw [show afterComma (("data:image/png;base64,").data) = [] from by decide]
    rw [List.nil_append]
    exact upToComma_replicate 14000000
  have hover : roundedSize (base64Part (fixPayload wFile.mime (optStr wFile.data)))
      > maxSizeFor (classifyMime (optStr wFile.mime)) := by
    rw [h3, h4, roundedSize_replicate]
    decide
  have c1 : (wFileInp.sessionId : List Char).isEmpty = false := by decide
  have c2 : findConv wStore 1 1 = some wConv := by decide
  have c4 : strTruthy wFile.data = true := by decide
  have c5 : strTruthy wFile.mime = true := by decide
  exact ⟨c1, c2, rfl, c4, c5, hover,
    file_size_limit_rejection wStore 1 1000 wFileInp (("f5").data) wFile wConv
      c1 c2 rfl c4 c5 hover⟩

/-! ## Payload-outcome inversion lemmas -/
lemma processPayload_file_accept_shape (inp : SendInput) (fd : FileInput)
    (hfd : inp.fileData = some fd) (hdata : strTruthy fd.data = true)
    (mc mt : List Char) (pf : Option StoredFile)
    (hacc : processPayload inp = .accept mc mt pf) :
    mc = jsOr (optStr fd.name) (jsOr inp.content (("File").data)) ∧ pf.isNone = false := by
  unfold processPayload at hacc
  simp only [hfd] at hacc
  rw [if_pos hdata] at hacc
  split at hacc <;> split at hacc
  · exact (PayloadOutcome.noConfusion hacc)
  · injection hacc with h1 h2 h3
    refine ⟨h1.symm, ?_⟩
    rw [← h3]
    rfl
  · exact (PayloadOutcome.noConfusion hacc)
  · injection hacc with h1 h2 h3
    refine ⟨h1.symm, ?_⟩
    rw [← h3]
    rfl

lemma processPayload_file_reject_shape (inp : SendInput) (fd : FileInput)
    (hfd : inp.fileData = some fd) (hdata : strTruthy fd.data = true)
    (e : Ev) (hrej : processPayload inp = .reject e) :
    ∃ a d, e = .errEv a (some d) := by
  unfold processPayload at hrej
  simp only [hfd] at hrej
  rw [if_pos hdata] at hrej
  split at hrej <;> split at hrej
  · injection hrej with h
    exact ⟨_, _, h.symm⟩
  · exact (PayloadOutcome.noConfusion hrej)
  · injection hrej with h
    exact ⟨_, _, h.symm⟩
  · exact (PayloadOutcome.noConfusion hrej)

/-- Claim C10 (confirmed): when a send carries a file payload with data,
the persisted content is fileData.name, falling back to the text content and
then to the literal File (JS truthiness), trimmed — so text sent alongside a
named file is discarded — and the empty-content rejection event can never be
emitted for such a send. -/
theorem file_send_content_override
    (st : Store) (uid now : Nat) (inp : SendInput) (fresh : List Char) (fd : FileInput)
    (hfd : inp.fileData = some fd) (hdata : strTruthy fd.data = true) :
    ((Ev.errEv errContentRequired none) ∉ (sendMessage st uid inp now fresh).events)
  ∧ (∀ mc mt pf, processPayload inp = .accept mc mt pf →
        mc = jsOr (optStr fd.name) (jsOr inp.content (("File").data)))
  ∧ (∀ c mc mt pf, findConv st inp.conversationId uid = some c →
        inp.sessionId.isEmpty = false →
        processPayload inp = .accept mc mt pf →
        (st.messages.any (fun m => m.messageId == jsOr inp.messageId fresh)) = false →
        ∃ m : Message,
          (sendMessage st uid inp now fresh).st.messages = st.messages ++ [m]
            ∧ m.content = trimL (jsOr (optStr fd.name) (jsOr inp.content (("File").data)))) := by
  refine ⟨?_, ?_, ?_⟩
  · unfold sendMessage
    by_cases hsid : inp.sessionId.isEmpty = true
    · rw [if_pos hsid]
      intro hmem
      simp only [List.mem_singleton] at hmem
      exact absurd hmem (by decide)
    · rw [if_neg hsid]
      cases hfc : findConv st inp.conversationId uid with
      | none =>
        intro hmem
        simp only [List.mem_singleton] at hmem
        exact absurd hmem (by decide)
      | some c =>
        cases hpp : processPayload inp with
        | reject e =>
          obtain ⟨a, d, he⟩ := processPayload_file_reject_shape inp fd hfd hdata e hpp
          intro hmem
          simp only [List.mem_singleton] at hmem
          rw [he] at hmem
          simp at hmem
        | accept mc mt pf =>
          have hpf : pf.isNone = false :=
            (processPayload_file_accept_shape inp fd hfd hdata mc mt pf hpp).2
          dsimp only
          unfold sendPersistPhase
          rw [if_neg (by simp [hpf])]
          dsimp only
          split
          · intro hmem
            simp only [List.mem_singleton] at hmem
            simp at hmem
          · intro hmem
            simp at hmem
  · intro mc mt pf hacc
    exact (processPayload_file_accept_shape inp fd hfd hdata mc mt pf hacc).1
  · intro c mc mt pf hconv hsid hacc hdup
    obtain ⟨hmc, hpf⟩ := processPayload_file_accept_shape inp fd hfd hdata mc mt pf hacc
    unfold sendMessage
    simp only [hsid, Bool.false_eq_true, if_false, hconv, hacc]
    unfold sendPersistPhase
    rw [if_neg (by simp [hpf])]
    dsimp only
    rw [if_neg (by simp [hdup])]
    refine ⟨_, rfl, ?_⟩
    rw [← hmc]

/-- Witness for claim C10 at a send carrying both text and a named file. -/
theorem file_send_content_override_witness :
    (wFileInp2.fileData = some wSmallFile)
  ∧ (strTruthy wSmallFile.data = true)
  ∧ (((Ev.errEv errContentRequired none)
        ∉ (sendMessage wStore 1 wFileInp2 1000 (("fA").data)).events)
      ∧ (∀ mc mt pf, processPayload wFileInp2 = .accept mc mt pf →
            mc = jsOr (optStr wSmallFile.name) (jsOr wFileInp2.content (("File").data)))
      ∧ (∀ c mc mt pf, findConv wStore wFileInp2.conversationId 1 = some c →
            wFileInp2.sessionId.isEmpty = false →
            processPayload wFileInp2 = .accept mc mt pf →
            (wStore.messages.any (fun m => m.messageId == jsOr wFileInp2.messageId (("fA").data)))
              = false →
            ∃ m : Message,
              (sendMessage wStore 1 wFileInp2 1000 (("fA").data)).st.messages
                  = wStore.messages ++ [m]
                ∧ m.content
                    = trimL (jsOr (optStr wSmallFile.name)
                        (jsOr wFileInp2.content (("File").data))))) :=
  ⟨rfl, by decide,
   file_send_content_override wStore 1 1000 wFileInp2 (("fA").data) wSmallFile rfl (by decide)⟩

end Chat
